import Mathlib

/-!
Verification of the IFS customization translator's core: the CS/CE block
text format produced by `lng_generator.py` / `trs_generator.py` and checked
by `validator.py`.  Text is modelled as lists of characters; Python string
operations (`strip`, `split`, `startswith`, `endswith`, `readlines` with
universal newlines) are embedded as executable functions below.
-/

abbrev Chars := List Char

def chars (s : String) : Chars := s.data

def crlf : Chars := ['\r', '\n']

def squote : Char := Char.ofNat 39

/-- The whitespace characters stripped by Python `str.strip()`. -/
def isPySpace (c : Char) : Bool :=
  c = ' ' || c = '\t' || c = '\n' || c = '\r' || c = '\x0b' || c = '\x0c'

/-- Strip trailing Python whitespace. -/
def stripRight (s : Chars) : Chars := (s.reverse.dropWhile isPySpace).reverse

/-- Python `s.strip()`: drop whitespace at both ends. -/
def pyStrip (s : Chars) : Chars := stripRight (s.dropWhile isPySpace)

/-- Python `s.startswith(p)`. -/
def startsWith : Chars → Chars → Bool
  | [], _ => true
  | _ :: _, [] => false
  | p :: ps, c :: cs => p = c && startsWith ps cs

/-- Python `s.endswith(p)`. -/
def endsWith (p s : Chars) : Bool := startsWith p.reverse s.reverse

/-- Python `s.split(sep)` for a one-character separator. -/
def splitChar (sep : Char) : Chars → List Chars
  | [] => [[]]
  | c :: cs =>
    match splitChar sep cs with
    | [] => [[]]
    | p :: ps => if c = sep then [] :: p :: ps else (c :: p) :: ps

/-- Python `f.readlines()`: split into lines, each keeping its trailing newline. -/
def pyLines : Chars → List Chars
  | [] => []
  | c :: cs =>
    if c = '\n' then [c] :: pyLines cs
    else
      match pyLines cs with
      | [] => [[c]]
      | l :: ls => (c :: l) :: ls

/-- Python text-mode reading with universal newlines: `\r\n` and a lone `\r`
both become `\n`. -/
def univNewlines : Chars → Chars
  | [] => []
  | [c] => if c = '\r' then ['\n'] else [c]
  | c :: d :: cs =>
    if c = '\r' then
      if d = '\n' then '\n' :: univNewlines cs
      else '\n' :: univNewlines (d :: cs)
    else c :: univNewlines (d :: cs)

/-- Substring test (Python `needle in hay`). -/
def isSub (needle : Chars) : Chars → Bool
  | [] => startsWith needle []
  | hay@(_ :: t) => startsWith needle hay || isSub needle t

/-- Decimal rendering of a natural number, as Python `str(n)`. -/
def natChars (n : Nat) : Chars := (toString n).data

def tabs (d : Nat) : Chars := List.replicate d '\t'

/-! ## Data model (`parser.py` output, consumed by the generators)

The Python code passes nested insertion-ordered dictionaries; the generators
read, per node, only the fields modelled here (`name`/`control`, `label`,
`is_custom`) and iterate the maps in order, so each map is a list. -/

structure Column where
  control : Chars
  label : Chars
  is_custom : Bool
deriving DecidableEq

structure View where
  control : Chars
  label : Chars
  columns : List Column
deriving DecidableEq

structure LogicalUnit where
  name : Chars
  label : Chars
  views : List View
deriving DecidableEq

structure ResourceTree where
  logical_units : List LogicalUnit
deriving DecidableEq

/-- `translations` dictionary: original label to translated label.
Python `translations.get(label, label)` is `(lookup label tm).getD label`. -/
abbrev TranslationMap := List (Chars × Chars)

/-! ## `lng_generator.py` -/

structure LNGGenerator where
  module : Chars
  layer : Chars
  main_type : Chars
  sub_type : Chars
deriving DecidableEq

namespace LNGGenerator

def sepLine : Chars := chars "-------------------------------------------------------"

/-- The ten header lines of `generate_header`, without their `\r\n` endings. -/
def header_bodies (g : LNGGenerator) : List Chars :=
  [ sepLine,
    chars "File Type: IFS Foundation Language File",
    chars "Type version: 10.00",
    sepLine,
    chars "Module: " ++ g.module,
    chars "Layer: " ++ g.layer,
    chars "Main Type: " ++ g.main_type,
    chars "Sub Type: " ++ g.sub_type,
    chars "Content: ",
    sepLine ]

/-- `'\r\n'.join(header) + '\r\n'`. -/
def generate_header (g : LNGGenerator) : Chars :=
  ((g.header_bodies).map (· ++ crlf)).flatten

/-- `_generate_column_block`, line bodies (each emitted line is body ++ `\r\n`). -/
def column_bodies (col : Column) (d : Nat) : List Chars :=
  [ tabs d ++ chars "CS:" ++ col.control ++ chars "^LU^Column^N^N",
    tabs d ++ '\t' :: (chars "A:Prompt^" ++ col.label ++ ['^']),
    tabs d ++ chars "CE:" ]

/-- `_generate_view_block`: CS line, blocks for custom columns, CE line. -/
def view_bodies (v : View) (d : Nat) : List Chars :=
  (tabs d ++ chars "CS:" ++ v.control ++ chars "^LU^View^N^N")
    :: ((v.columns.filter (·.is_custom)).map (column_bodies · (d + 1))).flatten
    ++ [tabs d ++ chars "CE:"]

/-- `_generate_lu_block`: CS line, prompt line, view blocks, CE line. -/
def lu_bodies (lu : LogicalUnit) (d : Nat) : List Chars :=
  (tabs d ++ chars "CS:" ++ lu.name ++ chars "^LU^Logical Unit^N^N")
    :: (tabs d ++ '\t' :: (chars "A:Prompt^" ++ lu.label ++ ['^']))
    :: ((lu.views.map (view_bodies · (d + 1))).flatten
        ++ [tabs d ++ chars "CE:"])

def content_bodies (t : ResourceTree) : List Chars :=
  (t.logical_units.map (lu_bodies · 0)).flatten

/-- The list of emitted content lines (`lines` in `generate_content`). -/
def content_lines (t : ResourceTree) : List Chars :=
  (content_bodies t).map (· ++ crlf)

/-- `generate_content`: `''.join(lines)`. -/
def generate_content (t : ResourceTree) : Chars := (content_lines t).flatten

/-- `generate_file`: the text written to the output file. -/
def generate_file (g : LNGGenerator) (t : ResourceTree) : Chars :=
  g.generate_header ++ generate_content t

end LNGGenerator

/-! ## `trs_generator.py` -/

structure TRSGenerator where
  module : Chars
  layer : Chars
  language : Chars
  main_type : Chars
  sub_type : Chars
deriving DecidableEq

namespace TRSGenerator

/-- Language code: fixed table (`sv-SE`, `nb-NO`), else text before the first `-`. -/
def lang_code (g : TRSGenerator) : Chars :=
  if g.language = chars "sv-SE" then chars "sv"
  else if g.language = chars "nb-NO" then chars "no"
  else g.language.takeWhile (· ≠ '-')

def culture (g : TRSGenerator) : Chars := g.language

/-- The twelve header lines of `generate_header`, without their `\r\n` endings. -/
def header_bodies (g : TRSGenerator) : List Chars :=
  [ LNGGenerator.sepLine,
    chars "File Type: IFS Foundation Translation File",
    chars "Type version: 10.00",
    LNGGenerator.sepLine,
    chars "Module: " ++ g.module,
    chars "Language: " ++ g.lang_code,
    chars "Culture: " ++ g.culture,
    chars "Layer: " ++ g.layer,
    chars "Main Type: " ++ g.main_type,
    chars "Sub Type: " ++ g.sub_type,
    chars "Content: ",
    LNGGenerator.sepLine ]

def generate_header (g : TRSGenerator) : Chars :=
  ((g.header_bodies).map (· ++ crlf)).flatten

/-- `_generate_column_block`: CS line (two fields), P line with the original
label, A:Prompt line with the translated label (map lookup, defaulting to the
original), CE line. -/
def column_bodies (col : Column) (tm : TranslationMap) (d : Nat) : List Chars :=
  [ tabs d ++ chars "CS:" ++ col.control ++ chars "^LU",
    tabs d ++ '\t' :: (chars "P:" ++ col.label ++ ['^']),
    tabs d ++ '\t' :: (chars "A:Prompt^" ++ ((List.lookup col.label tm).getD col.label) ++ ['^']),
    tabs d ++ chars "CE:" ]

def view_bodies (v : View) (tm : TranslationMap) (d : Nat) : List Chars :=
  (tabs d ++ chars "CS:" ++ v.control ++ chars "^LU")
    :: ((v.columns.filter (·.is_custom)).map (column_bodies · tm (d + 1))).flatten
    ++ [tabs d ++ chars "CE:"]

def lu_bodies (lu : LogicalUnit) (tm : TranslationMap) (d : Nat) : List Chars :=
  (tabs d ++ chars "CS:" ++ lu.name ++ chars "^LU")
    :: ((lu.views.map (view_bodies · tm (d + 1))).flatten
        ++ [tabs d ++ chars "CE:"])

def content_bodies (t : ResourceTree) (tm : TranslationMap) : List Chars :=
  (t.logical_units.map (lu_bodies · tm 0)).flatten

def content_lines (t : ResourceTree) (tm : TranslationMap) : List Chars :=
  (content_bodies t tm).map (· ++ crlf)

def generate_content (t : ResourceTree) (tm : TranslationMap) : Chars :=
  (content_lines t tm).flatten

def generate_file (g : TRSGenerator) (t : ResourceTree) (tm : TranslationMap) : Chars :=
  g.generate_header ++ generate_content t tm

end TRSGenerator

/-! ## `validator.py` -/

namespace IFSValidator

def malformedMsg (n : Nat) (stripped : Chars) : Chars :=
  chars "Line " ++ natChars n ++ chars ": Malformed CS line: " ++ stripped

def ceNoCsMsg (n : Nat) : Chars :=
  chars "Line " ++ natChars n ++ chars ": CE without matching CS"

def unclosedMsg (ident : Chars) (n : Nat) : Chars :=
  chars "Line " ++ natChars n ++ (chars ": CS " ++ (squote :: (ident ++ (squote :: chars " not closed with CE"))))

def spacesMsg (n : Nat) : Chars :=
  chars "Line " ++ natChars n ++ chars ": Uses spaces instead of tabs for indentation"

def csFormatLngMsg (n got : Nat) : Chars :=
  chars "Line " ++ natChars n ++ chars ": Invalid CS format. Expected 5 parts, got " ++ natChars got

def csFormatTrsMsg (n got : Nat) : Chars :=
  chars "Line " ++ natChars n ++ chars ": Invalid CS format for .trs. Expected 2 parts, got " ++ natChars got

def promptEndMsg (n : Nat) : Chars :=
  chars "Line " ++ natChars n ++ chars ": A:Prompt should end with ^"

def pEndMsg (n : Nat) : Chars :=
  chars "Line " ++ natChars n ++ chars ": P: line should end with ^"

/-- The `expected_type` string of `_validate_header`. -/
def expectedType (is_lng : Bool) : Chars :=
  if is_lng then chars "IFS Foundation Language File"
  else chars "IFS Foundation Translation File"

/-- `_validate_header`: scan the first 15 lines for required substrings.
Returns (errors, warnings). -/
def headerCheck (lines : List Chars) (is_lng : Bool) : List Chars × List Chars :=
  if lines.length < 10 then ([chars "File too short, missing header"], [])
  else
    ((if isSub (expectedType is_lng) ((lines.take 15).flatten) then []
      else [chars "Invalid file type header. Expected: " ++ expectedType is_lng])
     ++ ([chars "Module:", chars "Layer:", chars "Main Type:", chars "Sub Type:"]).filterMap
        (fun f => if isSub f ((lines.take 15).flatten) then none
                  else some (chars "Missing required header field: " ++ f)),
     if isSub (chars "Type version: 10.00") ((lines.take 15).flatten) then []
     else [chars "Type version is not 10.00"])

/-- `_find_content_start`: index of the first line whose stripped text starts
with `CS:`. -/
def find_content_start (i : Nat) : List Chars → Option Nat
  | [] => none
  | l :: ls =>
    if startsWith (chars "CS:") (pyStrip l) then some i
    else find_content_start (i + 1) ls

/-- The scan loop of `_validate_cs_ce_pairing`: returns (errors in scan order,
final stack, top of stack at the head). -/
def pairingScan : Nat → List (Chars × Nat) → List Chars → List Chars × List (Chars × Nat)
  | _, stack, [] => ([], stack)
  | n, stack, line :: rest =>
    let s := pyStrip line
    if startsWith (chars "CS:") s then
      let ident := (s.drop 3).takeWhile (· ≠ '^')
      if ident = [] then
        let r := pairingScan (n + 1) stack rest
        (malformedMsg n s :: r.1, r.2)
      else pairingScan (n + 1) ((ident, n) :: stack) rest
    else if startsWith (chars "CE:") s then
      match stack with
      | [] =>
        let r := pairingScan (n + 1) [] rest
        (ceNoCsMsg n :: r.1, r.2)
      | _ :: st => pairingScan (n + 1) st rest
    else pairingScan (n + 1) stack rest

/-- `_validate_cs_ce_pairing`: scan errors, then one error per unclosed CS
(reported bottom of stack first, at its opening line). -/
def cs_ce_errors (offset : Nat) (content_lines : List Chars) : List Chars :=
  let r := pairingScan (offset + 1) [] content_lines
  r.1 ++ r.2.reverse.map (fun p => unclosedMsg p.1 p.2)

/-- `_validate_indentation`: warn when a non-blank line starts with a space. -/
def indentScan : Nat → List Chars → List Chars
  | _, [] => []
  | n, line :: rest =>
    let tail := indentScan (n + 1) rest
    if pyStrip line = [] then tail
    else if startsWith [' '] line && !startsWith ['\t'] line then spacesMsg n :: tail
    else tail

/-- Per-line checks of `_validate_lng_structure`, on the stripped line. -/
def lngLineErrors (n : Nat) (s : Chars) : List Chars :=
  (if startsWith (chars "CS:") s then
    (if (splitChar '^' s).length = 5 then []
     else [csFormatLngMsg n (splitChar '^' s).length])
   else [])
  ++ (if startsWith (chars "A:Prompt^") s then
       (if endsWith ['^'] s then [] else [promptEndMsg n])
      else [])

def lngStructScan : Nat → List Chars → List Chars
  | _, [] => []
  | n, line :: rest => lngLineErrors n (pyStrip line) ++ lngStructScan (n + 1) rest

/-- Per-line checks of `_validate_trs_structure`, on the stripped line. -/
def trsLineErrors (n : Nat) (s : Chars) : List Chars :=
  (if startsWith (chars "CS:") s then
    (if (splitChar '^' s).length = 2 then []
     else [csFormatTrsMsg n (splitChar '^' s).length])
   else [])
  ++ (if startsWith (chars "P:") s then
       (if endsWith ['^'] s then [] else [pEndMsg n])
      else [])
  ++ (if startsWith (chars "A:Prompt^") s then
       (if endsWith ['^'] s then [] else [promptEndMsg n])
      else [])

def trsStructScan : Nat → List Chars → List Chars
  | _, [] => []
  | n, line :: rest => trsLineErrors n (pyStrip line) ++ trsStructScan (n + 1) rest

/-- All errors collected by `validate_file` once the content section has been
located at index `cstart`: header errors, then CS/CE pairing errors, then the
per-kind structure errors. -/
def allErrors (is_lng : Bool) (lines : List Chars) (cstart : Nat) : List Chars :=
  (headerCheck lines is_lng).1
    ++ cs_ce_errors cstart (lines.drop cstart)
    ++ (if is_lng then lngStructScan (cstart + 1) (lines.drop cstart)
        else trsStructScan (cstart + 1) (lines.drop cstart))

/-- The checks of `validate_file` after the file has been read into `lines`:
if no content start is found, a fatal error; otherwise the collected error and
warning lists, valid iff no errors. -/
def vcore (is_lng : Bool) (lines : List Chars) : Bool × List Chars × List Chars :=
  (find_content_start 0 lines).elim
    (false, (headerCheck lines is_lng).1 ++ [chars "Could not find content section"],
     (headerCheck lines is_lng).2)
    (fun cstart =>
      (allErrors is_lng lines cstart = [], allErrors is_lng lines cstart,
       (headerCheck lines is_lng).2 ++ indentScan (cstart + 1) (lines.drop cstart)))

/-- `validate_file` on a file with extension `ext` whose stored bytes are
`content`: unknown extensions are rejected, otherwise the text is read in
universal-newlines mode, split into lines and checked. -/
def validate_file (ext : Chars) (content : Chars) : Bool × List Chars × List Chars :=
  if ext ≠ chars ".lng" ∧ ext ≠ chars ".trs" then
    (false, [chars "Unknown file type: " ++ ext], [])
  else
    vcore (ext = chars ".lng") (pyLines (univNewlines content))

/-- The `IFSValidator` instance state: `self.errors` and `self.warnings`. -/
structure State where
  errors : List Chars
  warnings : List Chars
deriving DecidableEq

/-- The reset `self.errors = []; self.warnings = []` at the top of
`validate_file`. -/
def reset (_ : State) : State := ⟨[], []⟩

/-- `validate_file` as a method: resets the instance state, runs the checks,
leaves the collected lists in the instance and returns the triple. -/
def validate_file_st (self : State) (ext content : Chars) :
    (Bool × List Chars × List Chars) × State :=
  let self' := reset self
  let r := validate_file ext content
  ((r.1, self'.errors ++ r.2.1, self'.warnings ++ r.2.2),
   ⟨self'.errors ++ r.2.1, self'.warnings ++ r.2.2⟩)

end IFSValidator

/-! ## Predicates and concrete inputs used by the verification -/

/-- A list of lines is neutral for the nesting scan: it adds no errors and
leaves any stack unchanged. -/
def IFSValidator.Neutral (ls : List Chars) : Prop :=
  ∀ (n : Nat) (stack : List (Chars × Nat)), IFSValidator.pairingScan n stack ls = ([], stack)

/-- A list of lines carrying no `.lng` per-line structure errors. -/
def IFSValidator.LngClean (ls : List Chars) : Prop :=
  ∀ n : Nat, IFSValidator.lngStructScan n ls = []

/-- A list of lines carrying no `.trs` per-line structure errors. -/
def IFSValidator.TrsClean (ls : List Chars) : Prop :=
  ∀ n : Nat, IFSValidator.trsStructScan n ls = []

def NoBreak (s : Chars) : Prop := '\r' ∉ s ∧ '\n' ∉ s

def GoodName (s : Chars) : Prop := s ≠ [] ∧ '^' ∉ s ∧ NoBreak s

def GoodTree (t : ResourceTree) : Prop :=
  t.logical_units ≠ [] ∧
  ∀ lu ∈ t.logical_units, GoodName lu.name ∧ NoBreak lu.label ∧
    ∀ v ∈ lu.views, GoodName v.control ∧
      ∀ c ∈ v.columns, GoodName c.control ∧ NoBreak c.label

instance : DecidablePred NoBreak := fun s => by unfold NoBreak; infer_instance

instance : DecidablePred GoodName := fun s => by unfold GoodName; infer_instance

instance : DecidablePred GoodTree := fun t => by unfold GoodTree; infer_instance

/-- The caret-freedom hypotheses of the field-count contract: node identifiers
contain no `^`. -/
def CaretFreeIds (t : ResourceTree) : Prop :=
  ∀ lu ∈ t.logical_units, '^' ∉ lu.name ∧
    ∀ v ∈ lu.views, '^' ∉ v.control ∧ ∀ c ∈ v.columns, '^' ∉ c.control

instance : DecidablePred CaretFreeIds := fun t => by unfold CaretFreeIds; infer_instance

/-- The hypotheses of the round-trip claim as stated: a tree filtered to
custom-only columns, at least one logical unit, and every name and label free
of `^` and of line breaks. -/
def ClaimTreeHyp (t : ResourceTree) : Prop :=
  t.logical_units ≠ [] ∧
  ∀ lu ∈ t.logical_units,
    ('^' ∉ lu.name ∧ NoBreak lu.name) ∧ ('^' ∉ lu.label ∧ NoBreak lu.label) ∧
    ∀ v ∈ lu.views,
      ('^' ∉ v.control ∧ NoBreak v.control) ∧ ('^' ∉ v.label ∧ NoBreak v.label) ∧
      ∀ c ∈ v.columns,
        ('^' ∉ c.control ∧ NoBreak c.control) ∧ ('^' ∉ c.label ∧ NoBreak c.label) ∧
        c.is_custom = true

instance : DecidablePred ClaimTreeHyp := fun t => by unfold ClaimTreeHyp; infer_instance

/-- The amendment: node identifiers must be nonempty. -/
def NamesNonempty (t : ResourceTree) : Prop :=
  ∀ lu ∈ t.logical_units, lu.name ≠ [] ∧
    ∀ v ∈ lu.views, v.control ≠ [] ∧ ∀ c ∈ v.columns, c.control ≠ []

instance : DecidablePred NamesNonempty := fun t => by unfold NamesNonempty; infer_instance

def scenarioColumn : Column := ⟨chars "C_TEST_FIELD", chars "Test Field", true⟩

def scenarioView : View := ⟨chars "TEST_VIEW", chars "Test View", [scenarioColumn]⟩

def scenarioLU : LogicalUnit := ⟨chars "TestLU", chars "Test Logical Unit", [scenarioView]⟩

def scenarioTree : ResourceTree := ⟨[scenarioLU]⟩

def lngESSPRO : LNGGenerator := ⟨chars "ESSPRO", chars "Cust", chars "LU", chars "Logical Unit"⟩

def trsSvSE : TRSGenerator := ⟨chars "ESSPRO", chars "Cust", chars "sv-SE", chars "LU", chars "Logical Unit"⟩

def svMap : TranslationMap := [(chars "Test Field", chars "Testfält")]

/-- A tree meeting the claim's stated hypotheses whose logical-unit name is
empty. -/
def emptyNameTree : ResourceTree :=
  ⟨[⟨[], chars "X", [⟨chars "V1", chars "v", [⟨chars "C_F", chars "Test", true⟩]⟩]⟩]⟩

/-- A translation map whose value contains a line break. -/
def badValueMap : TranslationMap := [(chars "Test Field", 'a' :: '\n' :: chars "CS:bad")]

/-! ## General lemmas about the text primitives -/

set_option maxRecDepth 400000

theorem startsWith_self_append (p r : Chars) : startsWith p (p ++ r) = true := by
  induction p with
  | nil => rfl
  | cons c cs ih => simp [startsWith, ih]

theorem startsWith_extend {p a : Chars} (b : Chars) (h : startsWith p a = true) :
    startsWith p (a ++ b) = true := by
  induction p generalizing a with
  | nil => rfl
  | cons c cs ih =>
    cases a with
    | nil => simp [startsWith] at h
    | cons x xs =>
      simp only [startsWith, Bool.and_eq_true] at h
      simp [startsWith, h.1, ih h.2]

theorem isSub_nil_needle (hay : Chars) : isSub [] hay = true := by
  cases hay <;> simp [isSub, startsWith]

theorem isSub_append_right {n b : Chars} (a : Chars) (h : isSub n b = true) :
    isSub n (a ++ b) = true := by
  induction a with
  | nil => simpa
  | cons x xs ih => simp [isSub, ih]

theorem isSub_append_left {n a : Chars} (b : Chars) (h : isSub n a = true) :
    isSub n (a ++ b) = true := by
  induction a with
  | nil =>
    cases n with
    | nil => exact isSub_nil_needle b
    | cons c cs => simp [isSub, startsWith] at h
  | cons x xs ih =>
    simp only [isSub, Bool.or_eq_true] at h
    rcases h with h | h
    · simp only [List.cons_append, isSub, Bool.or_eq_true]
      exact Or.inl (startsWith_extend b h)
    · simp only [List.cons_append, isSub, Bool.or_eq_true]
      exact Or.inr (ih h)

theorem dropWhile_ws_append {ws : Chars} (s : Chars)
    (h : ∀ c ∈ ws, isPySpace c = true) :
    (ws ++ s).dropWhile isPySpace = s.dropWhile isPySpace := by
  induction ws with
  | nil => rfl
  | cons c cs ih =>
    simp only [List.cons_append, List.dropWhile_cons, h c (by simp), if_true]
    exact ih fun d hd => h d (by simp [hd])

theorem stripRight_ws_append {ws : Chars} (s : Chars)
    (h : ∀ c ∈ ws, isPySpace c = true) :
    stripRight (s ++ ws) = stripRight s := by
  unfold stripRight
  rw [List.reverse_append, dropWhile_ws_append s.reverse (fun c hc => h c (by simpa using hc))]

theorem stripRight_eq_self {s : Chars} {b : Char} (hlast : s.getLast? = some b)
    (hb : isPySpace b = false) : stripRight s = s := by
  unfold stripRight
  rw [← List.head?_reverse] at hlast
  cases hrev : s.reverse with
  | nil => rw [hrev] at hlast; simp at hlast
  | cons c cs =>
    rw [hrev] at hlast
    simp only [List.head?] at hlast
    obtain rfl : c = b := by injection hlast
    rw [List.dropWhile_cons, hb]
    simp only [if_false, Bool.false_eq_true]
    rw [← hrev, List.reverse_reverse]

theorem pyStrip_sandwich (ws1 s ws2 : Chars) {a b : Char}
    (h1 : ∀ c ∈ ws1, isPySpace c = true) (h2 : ∀ c ∈ ws2, isPySpace c = true)
    (hh : s.head? = some a) (ha : isPySpace a = false)
    (hl : s.getLast? = some b) (hb : isPySpace b = false) :
    pyStrip (ws1 ++ s ++ ws2) = s := by
  cases s with
  | nil => simp at hh
  | cons x xs =>
    simp only [List.head?] at hh
    obtain rfl : x = a := by injection hh
    unfold pyStrip
    rw [List.append_assoc, dropWhile_ws_append _ h1, List.cons_append,
      List.dropWhile_cons, ha]
    simp only [if_false, Bool.false_eq_true]
    rw [← List.cons_append, stripRight_ws_append _ h2, stripRight_eq_self hl hb]

theorem pyStrip_cons {c : Char} (s : Chars) (hc : isPySpace c = false) :
    pyStrip (c :: s) = c :: stripRight s := by
  unfold pyStrip
  rw [List.dropWhile_cons, hc]
  simp only [if_false, Bool.false_eq_true]
  unfold stripRight
  rw [List.reverse_cons, List.dropWhile_append]
  split
  · next hemp =>
    simp only [List.isEmpty_iff] at hemp
    simp [List.dropWhile_cons, hc, hemp]
  · simp [List.reverse_append]

theorem pyLines_line {p : Chars} (rest : Chars) (hp : '\n' ∉ p) :
    pyLines (p ++ '\n' :: rest) = (p ++ ['\n']) :: pyLines rest := by
  induction p with
  | nil => simp [pyLines]
  | cons c cs ih =>
    have hc : c ≠ '\n' := fun h => hp (h ▸ List.mem_cons_self c cs)
    have ih' := ih (fun h => hp (List.mem_cons_of_mem c h))
    simp only [List.cons_append, pyLines, if_neg hc, List.append_eq, ih']

theorem univ_cons {c : Char} (cs : Chars) (hc : c ≠ '\r') :
    univNewlines (c :: cs) = c :: univNewlines cs := by
  cases cs with
  | nil => simp [univNewlines, hc]
  | cons d ds => simp [univNewlines, hc]

theorem univ_line {p : Chars} (rest : Chars) (hp : '\r' ∉ p) :
    univNewlines (p ++ '\r' :: '\n' :: rest) = p ++ '\n' :: univNewlines rest := by
  induction p with
  | nil => simp [univNewlines]
  | cons c cs ih =>
    have hc : c ≠ '\r' := fun h => hp (h ▸ List.mem_cons_self c cs)
    have ih' := ih (fun h => hp (List.mem_cons_of_mem c h))
    rw [List.cons_append, univ_cons _ hc, ih', List.cons_append]

/-- Reading back a generated text: each stored line `body ++ "\r\n"` with a
break-free body comes back from universal-newlines reading as `body ++ "\n"`. -/
theorem pyLines_univ (B : List Chars)
    (h : ∀ p ∈ B, '\r' ∉ p ∧ '\n' ∉ p) :
    pyLines (univNewlines ((B.map (· ++ crlf)).flatten)) = B.map (· ++ ['\n']) := by
  induction B with
  | nil => simp [pyLines, univNewlines]
  | cons p B ih =>
    have hp := h p (by simp)
    have ih' := ih fun q hq => h q (by simp [hq])
    simp only [List.map_cons, List.flatten_cons]
    rw [show p ++ crlf ++ ((B.map (· ++ crlf)).flatten)
        = p ++ '\r' :: '\n' :: ((B.map (· ++ crlf)).flatten) by simp [crlf],
      univ_line _ hp.1, pyLines_line _ hp.2, ih']

/-- Splitting a generated text without newline translation: lines keep `\r\n`. -/
theorem pyLines_crlf (B : List Chars) (h : ∀ p ∈ B, '\n' ∉ p) :
    pyLines ((B.map (· ++ crlf)).flatten) = B.map (· ++ crlf) := by
  induction B with
  | nil => simp [pyLines]
  | cons p B ih =>
    have hp := h p (by simp)
    have ih' := ih fun q hq => h q (by simp [hq])
    have hpr : '\n' ∉ p ++ ['\r'] := by
      intro hmem
      rcases List.mem_append.mp hmem with hmem | hmem
      · exact hp hmem
      · simp at hmem
    simp only [List.map_cons, List.flatten_cons]
    rw [show p ++ crlf ++ ((B.map (· ++ crlf)).flatten)
        = (p ++ ['\r']) ++ '\n' :: ((B.map (· ++ crlf)).flatten) by simp [crlf],
      pyLines_line _ hpr, ih']
    simp [crlf]

theorem splitChar_ne_nil (sep : Char) (s : Chars) : splitChar sep s ≠ [] := by
  cases s with
  | nil => simp [splitChar]
  | cons c cs =>
    simp only [splitChar]
    cases h : splitChar sep cs with
    | nil => simp
    | cons p ps => by_cases hc : c = sep <;> simp [hc]

theorem splitChar_length (sep : Char) (s : Chars) :
    (splitChar sep s).length = s.count sep + 1 := by
  induction s with
  | nil => simp [splitChar]
  | cons c cs ih =>
    simp only [splitChar]
    cases h : splitChar sep cs with
    | nil => exact absurd h (splitChar_ne_nil sep cs)
    | cons p ps =>
      rw [h] at ih
      by_cases hc : c = sep
      · subst hc
        simp only [if_pos rfl, List.length_cons, List.count_cons]
        simp only [List.length_cons] at ih
        simp [ih]
      · simp only [if_neg hc, List.length_cons, List.count_cons]
        simp only [List.length_cons] at ih
        have : (cs.count sep + if c == sep then 1 else 0) = cs.count sep := by
          simp [hc]
        omega

theorem takeWhile_append_stop {p : Char → Bool} {x : Chars} {y : Char} (r : Chars)
    (hx : ∀ c ∈ x, p c = true) (hy : p y = false) :
    (x ++ y :: r).takeWhile p = x := by
  induction x with
  | nil => simp [List.takeWhile_cons, hy]
  | cons c cs ih =>
    simp only [List.cons_append, List.takeWhile_cons, hx c (by simp), if_true]
    rw [ih fun d hd => hx d (by simp [hd])]

/-! ## Character-level helper facts -/

theorem chars_CS : chars "CS:" = ['C', 'S', ':'] := by decide

theorem chars_AP : chars "A:Prompt^" = 'A' :: chars ":Prompt^" := by decide

theorem chars_Pc : chars "P:" = 'P' :: [':'] := by decide

theorem startsWith_cons_false {p c : Char} (ps cs : Chars) (h : p ≠ c) :
    startsWith (p :: ps) (c :: cs) = false := by
  simp [startsWith, h]

theorem endsWith_caret (s : Chars) : endsWith ['^'] (s ++ ['^']) = true := by
  unfold endsWith
  rw [List.reverse_append]
  simp [startsWith]

theorem tabs_space (d : Nat) : ∀ c ∈ tabs d, isPySpace c = true := by
  intro c hc
  rw [List.eq_of_mem_replicate hc]
  decide

theorem tabs_space' (d : Nat) : ∀ c ∈ tabs d ++ ['\t'], isPySpace c = true := by
  intro c hc
  rcases List.mem_append.mp hc with hc | hc
  · exact tabs_space d c hc
  · simp at hc; rw [hc]; decide

/-- Stripping an emitted line `whitespace ++ core ++ "\n"` whose core starts and
ends with a non-whitespace character recovers the core. -/
theorem pyStrip_line {ws core : Chars} {a b : Char}
    (hws : ∀ c ∈ ws, isPySpace c = true)
    (hh : core.head? = some a) (ha : isPySpace a = false)
    (hl : core.getLast? = some b) (hb : isPySpace b = false) :
    pyStrip ((ws ++ core) ++ ['\n']) = core := by
  exact pyStrip_sandwich ws core ['\n'] hws (by decide) hh ha hl hb

theorem strip_cs_line {suf : Chars} {z : Char} (d : Nat) (x : Chars)
    (hsl : suf.getLast? = some z) (hz : isPySpace z = false) :
    pyStrip ((tabs d ++ (chars "CS:" ++ x ++ suf)) ++ ['\n']) = chars "CS:" ++ x ++ suf := by
  have hh : (chars "CS:" ++ x ++ suf).head? = some 'C' := by
    rw [chars_CS]
    simp
  have hl : (chars "CS:" ++ x ++ suf).getLast? = some z := by
    rw [List.getLast?_append, hsl]
    rfl
  exact @pyStrip_line (tabs d) _ 'C' z (tabs_space d) hh (by decide) hl hz

theorem strip_prompt_line (d : Nat) (lbl : Chars) :
    pyStrip ((tabs d ++ '\t' :: (chars "A:Prompt^" ++ lbl ++ ['^'])) ++ ['\n'])
      = chars "A:Prompt^" ++ lbl ++ ['^'] := by
  rw [show tabs d ++ '\t' :: (chars "A:Prompt^" ++ lbl ++ ['^'])
      = (tabs d ++ ['\t']) ++ (chars "A:Prompt^" ++ lbl ++ ['^']) by simp]
  have hh : (chars "A:Prompt^" ++ lbl ++ ['^']).head? = some 'A' := by
    rw [chars_AP]
    simp
  have hl : (chars "A:Prompt^" ++ lbl ++ ['^']).getLast? = some '^' := by
    rw [List.getLast?_append]
    rfl
  exact @pyStrip_line (tabs d ++ ['\t']) _ 'A' '^' (tabs_space' d) hh (by decide) hl (by decide)

theorem strip_p_line (d : Nat) (lbl : Chars) :
    pyStrip ((tabs d ++ '\t' :: (chars "P:" ++ lbl ++ ['^'])) ++ ['\n'])
      = chars "P:" ++ lbl ++ ['^'] := by
  rw [show tabs d ++ '\t' :: (chars "P:" ++ lbl ++ ['^'])
      = (tabs d ++ ['\t']) ++ (chars "P:" ++ lbl ++ ['^']) by simp]
  have hh : (chars "P:" ++ lbl ++ ['^']).head? = some 'P' := by
    rw [chars_Pc]
    simp
  have hl : (chars "P:" ++ lbl ++ ['^']).getLast? = some '^' := by
    rw [List.getLast?_append]
    rfl
  exact @pyStrip_line (tabs d ++ ['\t']) _ 'P' '^' (tabs_space' d) hh (by decide) hl (by decide)

theorem strip_ce_line (d : Nat) :
    pyStrip ((tabs d ++ chars "CE:") ++ ['\n']) = chars "CE:" := by
  exact @pyStrip_line (tabs d) _ 'C' ':' (tabs_space d) (by decide) (by decide) (by decide) (by decide)

theorem cs_core_not_ap (x suf : Chars) :
    startsWith (chars "A:Prompt^") (chars "CS:" ++ x ++ suf) = false := by
  rw [chars_AP, chars_CS]
  simp only [List.cons_append, List.append_assoc]
  exact startsWith_cons_false _ _ (by decide)

theorem cs_core_not_p (x suf : Chars) :
    startsWith (chars "P:") (chars "CS:" ++ x ++ suf) = false := by
  rw [chars_Pc, chars_CS]
  simp only [List.cons_append, List.append_assoc]
  exact startsWith_cons_false _ _ (by decide)

theorem cs_core_is_cs (x suf : Chars) :
    startsWith (chars "CS:") (chars "CS:" ++ x ++ suf) = true := by
  rw [List.append_assoc]
  exact startsWith_self_append _ _

theorem prompt_core_not_cs (lbl : Chars) :
    startsWith (chars "CS:") (chars "A:Prompt^" ++ lbl ++ ['^']) = false := by
  rw [chars_AP, chars_CS]
  simp only [List.cons_append, List.append_assoc]
  exact startsWith_cons_false _ _ (by decide)

theorem prompt_core_not_ce (lbl : Chars) :
    startsWith (chars "CE:") (chars "A:Prompt^" ++ lbl ++ ['^']) = false := by
  rw [chars_AP, show chars "CE:" = 'C' :: ['E', ':'] from by decide]
  simp only [List.cons_append, List.append_assoc]
  exact startsWith_cons_false _ _ (by decide)

theorem prompt_core_not_p (lbl : Chars) :
    startsWith (chars "P:") (chars "A:Prompt^" ++ lbl ++ ['^']) = false := by
  rw [chars_AP, chars_Pc]
  simp only [List.cons_append, List.append_assoc]
  exact startsWith_cons_false _ _ (by decide)

theorem prompt_core_is_ap (lbl : Chars) :
    startsWith (chars "A:Prompt^") (chars "A:Prompt^" ++ lbl ++ ['^']) = true := by
  rw [List.append_assoc]
  exact startsWith_self_append _ _

theorem p_core_not_cs (lbl : Chars) :
    startsWith (chars "CS:") (chars "P:" ++ lbl ++ ['^']) = false := by
  rw [chars_Pc, chars_CS]
  simp only [List.cons_append, List.append_assoc]
  exact startsWith_cons_false _ _ (by decide)

theorem p_core_not_ce (lbl : Chars) :
    startsWith (chars "CE:") (chars "P:" ++ lbl ++ ['^']) = false := by
  rw [chars_Pc, show chars "CE:" = 'C' :: ['E', ':'] from by decide]
  simp only [List.cons_append, List.append_assoc]
  exact startsWith_cons_false _ _ (by decide)

theorem p_core_not_ap (lbl : Chars) :
    startsWith (chars "A:Prompt^") (chars "P:" ++ lbl ++ ['^']) = false := by
  rw [chars_Pc, chars_AP]
  simp only [List.cons_append, List.append_assoc]
  exact startsWith_cons_false _ _ (by decide)

/-! ## Nesting-scan lemmas -/

namespace IFSValidator

theorem scan_skip {l : Chars} (n : Nat) (stack : List (Chars × Nat)) (ls : List Chars)
    (h1 : startsWith (chars "CS:") (pyStrip l) = false)
    (h2 : startsWith (chars "CE:") (pyStrip l) = false) :
    pairingScan n stack (l :: ls) = pairingScan (n + 1) stack ls := by
  simp [pairingScan, h1, h2]

theorem scan_pop {l : Chars} (n : Nat) (p : Chars × Nat) (stack : List (Chars × Nat))
    (ls : List Chars)
    (h1 : startsWith (chars "CS:") (pyStrip l) = false)
    (h2 : startsWith (chars "CE:") (pyStrip l) = true) :
    pairingScan n (p :: stack) (l :: ls) = pairingScan (n + 1) stack ls := by
  simp [pairingScan, h1, h2]

theorem scan_push {l x rest : Chars} (n : Nat) (stack : List (Chars × Nat)) (ls : List Chars)
    (hstrip : pyStrip l = chars "CS:" ++ x ++ '^' :: rest)
    (hx : x ≠ []) (hxc : '^' ∉ x) :
    pairingScan n stack (l :: ls) = pairingScan (n + 1) ((x, n) :: stack) ls := by
  have hcond : startsWith (chars "CS:") (pyStrip l) = true := by
    rw [hstrip]
    exact cs_core_is_cs x ('^' :: rest)
  have hident : ((pyStrip l).drop 3).takeWhile (· ≠ '^') = x := by
    rw [hstrip, chars_CS]
    simp only [List.cons_append, List.drop_succ_cons, List.drop_zero, List.append_assoc,
      List.nil_append]
    refine takeWhile_append_stop rest ?_ (by decide)
    intro c hc
    have hcne : c ≠ '^' := fun h => hxc (h ▸ hc)
    simp [hcne]
  have hnil : ¬(((pyStrip l).drop 3).takeWhile (· ≠ '^') = []) := by
    rw [hident]
    exact hx
  simp only [pairingScan, hcond, if_true, if_neg hnil, hident]
  rw [if_neg hx]

theorem pairingScan_append (xs ys : List Chars) :
    ∀ (n : Nat) (stack : List (Chars × Nat)),
    pairingScan n stack (xs ++ ys)
      = ((pairingScan n stack xs).1
          ++ (pairingScan (n + xs.length) (pairingScan n stack xs).2 ys).1,
         (pairingScan (n + xs.length) (pairingScan n stack xs).2 ys).2) := by
  induction xs with
  | nil => intro n stack; simp [pairingScan]
  | cons l xs ih =>
    intro n stack
    have harith : n + (l :: xs).length = (n + 1) + xs.length := by
      simp [List.length_cons]
      omega
    rw [harith, List.cons_append]
    by_cases h1 : startsWith (chars "CS:") (pyStrip l) = true
    · by_cases h2 : ((pyStrip l).drop 3).takeWhile (· ≠ '^') = []
      · simp only [pairingScan, h1, if_true, h2, ih]
        simp
      · simp only [pairingScan, h1, if_true, if_neg h2, ih]
    · by_cases h2 : startsWith (chars "CE:") (pyStrip l) = true
      · cases stack with
        | nil =>
          simp only [pairingScan, h1, Bool.false_eq_true, if_false, h2, if_true, ih]
          simp
        | cons p st =>
          simp only [pairingScan, h1, Bool.false_eq_true, if_false, h2, if_true, ih]
      · simp only [pairingScan, h1, Bool.false_eq_true, if_false, h2, ih]

theorem neutral_nil : Neutral [] := fun _ _ => rfl

theorem neutral_append {xs ys : List Chars} (hx : Neutral xs) (hy : Neutral ys) :
    Neutral (xs ++ ys) := by
  intro n stack
  rw [pairingScan_append, hx n stack, hy (n + xs.length) stack]
  simp

theorem neutral_flat {bs : List (List Chars)} (h : ∀ b ∈ bs, Neutral b) :
    Neutral bs.flatten := by
  induction bs with
  | nil => exact neutral_nil
  | cons b bs ih =>
    rw [List.flatten_cons]
    exact neutral_append (h b (by simp)) (ih fun q hq => h q (by simp [hq]))

end IFSValidator

/-! ## Neutrality of generated blocks for the nesting scan -/

theorem strip_cs_gen {suf : Chars} {z : Char} (d : Nat) (x : Chars)
    (hsl : suf.getLast? = some z) (hz : isPySpace z = false) :
    pyStrip ((tabs d ++ chars "CS:" ++ x ++ suf) ++ ['\n']) = chars "CS:" ++ x ++ suf := by
  rw [show tabs d ++ chars "CS:" ++ x ++ suf = tabs d ++ (chars "CS:" ++ x ++ suf) by
    simp [List.append_assoc]]
  exact strip_cs_line d x hsl hz

theorem ce_not_cs : startsWith (chars "CS:") (chars "CE:") = false := by decide

theorem ce_is_ce : startsWith (chars "CE:") (chars "CE:") = true := by decide

theorem neutral_col_lng (col : Column) (d : Nat) (h1 : col.control ≠ [])
    (h2 : '^' ∉ col.control) :
    IFSValidator.Neutral ((LNGGenerator.column_bodies col d).map (· ++ ['\n'])) := by
  intro n stack
  have hN : (chars "^LU^Column^N^N").getLast? = some 'N' := by decide
  have hsufN : chars "^LU^Column^N^N" = '^' :: chars "LU^Column^N^N" := by decide
  have hcs : pyStrip ((tabs d ++ chars "CS:" ++ col.control ++ chars "^LU^Column^N^N") ++ ['\n'])
      = chars "CS:" ++ col.control ++ '^' :: chars "LU^Column^N^N" := by
    rw [strip_cs_gen d col.control hN (by decide), hsufN]
  have hce := strip_ce_line d
  have hpr := strip_prompt_line d col.label
  simp only [LNGGenerator.column_bodies, List.map_cons, List.map_nil]
  rw [IFSValidator.scan_push n stack _ hcs h1 h2]
  rw [IFSValidator.scan_skip _ _ _ (by rw [hpr]; exact prompt_core_not_cs _)
    (by rw [hpr]; exact prompt_core_not_ce _)]
  rw [IFSValidator.scan_pop _ _ _ _ (by rw [hce]; exact ce_not_cs)
    (by rw [hce]; exact ce_is_ce)]
  rfl

theorem neutral_view_lng (v : View) (d : Nat) (hv1 : v.control ≠ []) (hv2 : '^' ∉ v.control)
    (hcols : ∀ c ∈ v.columns, c.control ≠ [] ∧ '^' ∉ c.control) :
    IFSValidator.Neutral ((LNGGenerator.view_bodies v d).map (· ++ ['\n'])) := by
  intro n stack
  have hN : (chars "^LU^View^N^N").getLast? = some 'N' := by decide
  have hsufN : chars "^LU^View^N^N" = '^' :: chars "LU^View^N^N" := by decide
  have hcs : pyStrip ((tabs d ++ chars "CS:" ++ v.control ++ chars "^LU^View^N^N") ++ ['\n'])
      = chars "CS:" ++ v.control ++ '^' :: chars "LU^View^N^N" := by
    rw [strip_cs_gen d v.control hN (by decide), hsufN]
  have hce := strip_ce_line d
  have hmid : IFSValidator.Neutral
      (((((v.columns.filter (·.is_custom)).map (LNGGenerator.column_bodies · (d + 1)))).flatten).map
        (· ++ ['\n'])) := by
    rw [List.map_flatten]
    apply IFSValidator.neutral_flat
    intro b hb
    simp only [List.mem_map] at hb
    obtain ⟨bs, hbs, rfl⟩ := hb
    obtain ⟨c, hcmem, rfl⟩ := hbs
    have hc := hcols c (List.mem_filter.mp hcmem).1
    exact neutral_col_lng c (d + 1) hc.1 hc.2
  simp only [LNGGenerator.view_bodies, List.map_cons, List.map_append, List.map_nil,
    List.cons_append]
  rw [IFSValidator.scan_push n stack _ hcs hv1 hv2]
  rw [IFSValidator.pairingScan_append, hmid _ _]
  simp only [List.map_cons, List.map_nil]
  rw [IFSValidator.scan_pop _ _ _ _ (by rw [hce]; exact ce_not_cs)
    (by rw [hce]; exact ce_is_ce)]
  rfl

theorem neutral_lu_lng (lu : LogicalUnit) (d : Nat) (hl1 : lu.name ≠ []) (hl2 : '^' ∉ lu.name)
    (hviews : ∀ v ∈ lu.views, (v.control ≠ [] ∧ '^' ∉ v.control) ∧
      ∀ c ∈ v.columns, c.control ≠ [] ∧ '^' ∉ c.control) :
    IFSValidator.Neutral ((LNGGenerator.lu_bodies lu d).map (· ++ ['\n'])) := by
  intro n stack
  have hN : (chars "^LU^Logical Unit^N^N").getLast? = some 'N' := by decide
  have hsufN : chars "^LU^Logical Unit^N^N" = '^' :: chars "LU^Logical Unit^N^N" := by decide
  have hcs : pyStrip ((tabs d ++ chars "CS:" ++ lu.name ++ chars "^LU^Logical Unit^N^N") ++ ['\n'])
      = chars "CS:" ++ lu.name ++ '^' :: chars "LU^Logical Unit^N^N" := by
    rw [strip_cs_gen d lu.name hN (by decide), hsufN]
  have hce := strip_ce_line d
  have hpr := strip_prompt_line d lu.label
  have hmid : IFSValidator.Neutral
      (((lu.views.map (LNGGenerator.view_bodies · (d + 1))).flatten).map (· ++ ['\n'])) := by
    rw [List.map_flatten]
    apply IFSValidator.neutral_flat
    intro b hb
    simp only [List.mem_map] at hb
    obtain ⟨bs, hbs, rfl⟩ := hb
    obtain ⟨v, hvmem, rfl⟩ := hbs
    have hv := hviews v hvmem
    exact neutral_view_lng v (d + 1) hv.1.1 hv.1.2 hv.2
  simp only [LNGGenerator.lu_bodies, List.map_cons, List.map_append, List.map_nil,
    List.cons_append]
  rw [IFSValidator.scan_push n stack _ hcs hl1 hl2]
  rw [IFSValidator.scan_skip _ _ _ (by rw [hpr]; exact prompt_core_not_cs _)
    (by rw [hpr]; exact prompt_core_not_ce _)]
  rw [IFSValidator.pairingScan_append, hmid _ _]
  simp only [List.map_cons, List.map_nil]
  rw [IFSValidator.scan_pop _ _ _ _ (by rw [hce]; exact ce_not_cs)
    (by rw [hce]; exact ce_is_ce)]
  rfl

theorem neutral_content_lng (t : ResourceTree) (h : GoodTree t) :
    IFSValidator.Neutral ((LNGGenerator.content_bodies t).map (· ++ ['\n'])) := by
  unfold LNGGenerator.content_bodies
  rw [List.map_flatten]
  apply IFSValidator.neutral_flat
  intro b hb
  simp only [List.mem_map] at hb
  obtain ⟨bs, hbs, rfl⟩ := hb
  obtain ⟨lu, hlu, rfl⟩ := hbs
  have hgood := h.2 lu hlu
  refine neutral_lu_lng lu 0 hgood.1.1 hgood.1.2.1 ?_
  intro v hv
  have hvg := hgood.2.2 v hv
  exact ⟨⟨hvg.1.1, hvg.1.2.1⟩, fun c hc => ⟨(hvg.2 c hc).1.1, (hvg.2 c hc).1.2.1⟩⟩

theorem neutral_col_trs (col : Column) (tm : TranslationMap) (d : Nat)
    (h1 : col.control ≠ []) (h2 : '^' ∉ col.control) :
    IFSValidator.Neutral ((TRSGenerator.column_bodies col tm d).map (· ++ ['\n'])) := by
  intro n stack
  have hU : (chars "^LU").getLast? = some 'U' := by decide
  have hsufU : chars "^LU" = '^' :: chars "LU" := by decide
  have hcs : pyStrip ((tabs d ++ chars "CS:" ++ col.control ++ chars "^LU") ++ ['\n'])
      = chars "CS:" ++ col.control ++ '^' :: chars "LU" := by
    rw [strip_cs_gen d col.control hU (by decide), hsufU]
  have hce := strip_ce_line d
  have hp := strip_p_line d col.label
  have hpr := strip_prompt_line d ((List.lookup col.label tm).getD col.label)
  simp only [TRSGenerator.column_bodies, List.map_cons, List.map_nil]
  rw [IFSValidator.scan_push n stack _ hcs h1 h2]
  rw [IFSValidator.scan_skip _ _ _ (by rw [hp]; exact p_core_not_cs _)
    (by rw [hp]; exact p_core_not_ce _)]
  rw [IFSValidator.scan_skip _ _ _ (by rw [hpr]; exact prompt_core_not_cs _)
    (by rw [hpr]; exact prompt_core_not_ce _)]
  rw [IFSValidator.scan_pop _ _ _ _ (by rw [hce]; exact ce_not_cs)
    (by rw [hce]; exact ce_is_ce)]
  rfl

theorem neutral_view_trs (v : View) (tm : TranslationMap) (d : Nat)
    (hv1 : v.control ≠ []) (hv2 : '^' ∉ v.control)
    (hcols : ∀ c ∈ v.columns, c.control ≠ [] ∧ '^' ∉ c.control) :
    IFSValidator.Neutral ((TRSGenerator.view_bodies v tm d).map (· ++ ['\n'])) := by
  intro n stack
  have hU : (chars "^LU").getLast? = some 'U' := by decide
  have hsufU : chars "^LU" = '^' :: chars "LU" := by decide
  have hcs : pyStrip ((tabs d ++ chars "CS:" ++ v.control ++ chars "^LU") ++ ['\n'])
      = chars "CS:" ++ v.control ++ '^' :: chars "LU" := by
    rw [strip_cs_gen d v.control hU (by decide), hsufU]
  have hce := strip_ce_line d
  have hmid : IFSValidator.Neutral
      (((((v.columns.filter (·.is_custom)).map (TRSGenerator.column_bodies · tm (d + 1)))).flatten).map
        (· ++ ['\n'])) := by
    rw [List.map_flatten]
    apply IFSValidator.neutral_flat
    intro b hb
    simp only [List.mem_map] at hb
    obtain ⟨bs, hbs, rfl⟩ := hb
    obtain ⟨c, hcmem, rfl⟩ := hbs
    have hc := hcols c (List.mem_filter.mp hcmem).1
    exact neutral_col_trs c tm (d + 1) hc.1 hc.2
  simp only [TRSGenerator.view_bodies, List.map_cons, List.map_append, List.map_nil,
    List.cons_append]
  rw [IFSValidator.scan_push n stack _ hcs hv1 hv2]
  rw [IFSValidator.pairingScan_append, hmid _ _]
  simp only [List.map_cons, List.map_nil]
  rw [IFSValidator.scan_pop _ _ _ _ (by rw [hce]; exact ce_not_cs)
    (by rw [hce]; exact ce_is_ce)]
  rfl

theorem neutral_lu_trs (lu : LogicalUnit) (tm : TranslationMap) (d : Nat)
    (hl1 : lu.name ≠ []) (hl2 : '^' ∉ lu.name)
    (hviews : ∀ v ∈ lu.views, (v.control ≠ [] ∧ '^' ∉ v.control) ∧
      ∀ c ∈ v.columns, c.control ≠ [] ∧ '^' ∉ c.control) :
    IFSValidator.Neutral ((TRSGenerator.lu_bodies lu tm d).map (· ++ ['\n'])) := by
  intro n stack
  have hU : (chars "^LU").getLast? = some 'U' := by decide
  have hsufU : chars "^LU" = '^' :: chars "LU" := by decide
  have hcs : pyStrip ((tabs d ++ chars "CS:" ++ lu.name ++ chars "^LU") ++ ['\n'])
      = chars "CS:" ++ lu.name ++ '^' :: chars "LU" := by
    rw [strip_cs_gen d lu.name hU (by decide), hsufU]
  have hce := strip_ce_line d
  have hmid : IFSValidator.Neutral
      (((lu.views.map (TRSGenerator.view_bodies · tm (d + 1))).flatten).map (· ++ ['\n'])) := by
    rw [List.map_flatten]
    apply IFSValidator.neutral_flat
    intro b hb
    simp only [List.mem_map] at hb
    obtain ⟨bs, hbs, rfl⟩ := hb
    obtain ⟨v, hvmem, rfl⟩ := hbs
    have hv := hviews v hvmem
    exact neutral_view_trs v tm (d + 1) hv.1.1 hv.1.2 hv.2
  simp only [TRSGenerator.lu_bodies, List.map_cons, List.map_append, List.map_nil,
    List.cons_append]
  rw [IFSValidator.scan_push n stack _ hcs hl1 hl2]
  rw [IFSValidator.pairingScan_append, hmid _ _]
  simp only [List.map_cons, List.map_nil]
  rw [IFSValidator.scan_pop _ _ _ _ (by rw [hce]; exact ce_not_cs)
    (by rw [hce]; exact ce_is_ce)]
  rfl

theorem neutral_content_trs (t : ResourceTree) (tm : TranslationMap) (h : GoodTree t) :
    IFSValidator.Neutral ((TRSGenerator.content_bodies t tm).map (· ++ ['\n'])) := by
  unfold TRSGenerator.content_bodies
  rw [List.map_flatten]
  apply IFSValidator.neutral_flat
  intro b hb
  simp only [List.mem_map] at hb
  obtain ⟨bs, hbs, rfl⟩ := hb
  obtain ⟨lu, hlu, rfl⟩ := hbs
  have hgood := h.2 lu hlu
  refine neutral_lu_trs lu tm 0 hgood.1.1 hgood.1.2.1 ?_
  intro v hv
  have hvg := hgood.2.2 v hv
  exact ⟨⟨hvg.1.1, hvg.1.2.1⟩, fun c hc => ⟨(hvg.2 c hc).1.1, (hvg.2 c hc).1.2.1⟩⟩

/-! ## Per-line field-shape checks on generated lines -/

theorem splitChar_parts_cs (x suf : Chars) (hxc : '^' ∉ x) :
    (splitChar '^' (chars "CS:" ++ x ++ suf)).length = suf.count '^' + 1 := by
  rw [splitChar_length]
  have h1 : (chars "CS:" ++ x ++ suf).count '^' = suf.count '^' := by
    rw [List.append_assoc, List.count_append, List.count_append]
    have hx0 : x.count '^' = 0 := List.count_eq_zero.mpr hxc
    have hcs0 : (chars "CS:").count '^' = 0 := by decide
    omega
  rw [h1]

theorem lngLineErrors_cs (n : Nat) (x suf : Chars) (hxc : '^' ∉ x)
    (hc : suf.count '^' = 4) :
    IFSValidator.lngLineErrors n (chars "CS:" ++ x ++ suf) = [] := by
  have h5 : (splitChar '^' (chars "CS:" ++ x ++ suf)).length = 5 := by
    rw [splitChar_parts_cs x suf hxc, hc]
  simp only [IFSValidator.lngLineErrors, cs_core_is_cs, cs_core_not_ap, h5]
  simp

theorem lngLineErrors_prompt (n : Nat) (lbl : Chars) :
    IFSValidator.lngLineErrors n (chars "A:Prompt^" ++ lbl ++ ['^']) = [] := by
  have he : endsWith ['^'] (chars "A:Prompt^" ++ lbl ++ ['^']) = true := endsWith_caret _
  simp only [IFSValidator.lngLineErrors, prompt_core_not_cs, prompt_core_is_ap, he]
  simp

theorem lngLineErrors_ce (n : Nat) : IFSValidator.lngLineErrors n (chars "CE:") = [] := by
  have h2 : startsWith (chars "A:Prompt^") (chars "CE:") = false := by decide
  simp [IFSValidator.lngLineErrors, ce_not_cs, h2]

theorem trsLineErrors_cs (n : Nat) (x suf : Chars) (hxc : '^' ∉ x)
    (hc : suf.count '^' = 1) :
    IFSValidator.trsLineErrors n (chars "CS:" ++ x ++ suf) = [] := by
  have h2 : (splitChar '^' (chars "CS:" ++ x ++ suf)).length = 2 := by
    rw [splitChar_parts_cs x suf hxc, hc]
  simp only [IFSValidator.trsLineErrors, cs_core_is_cs, cs_core_not_ap, cs_core_not_p, h2]
  simp

theorem trsLineErrors_prompt (n : Nat) (lbl : Chars) :
    IFSValidator.trsLineErrors n (chars "A:Prompt^" ++ lbl ++ ['^']) = [] := by
  have he : endsWith ['^'] (chars "A:Prompt^" ++ lbl ++ ['^']) = true := endsWith_caret _
  simp only [IFSValidator.trsLineErrors, prompt_core_not_cs, prompt_core_not_p,
    prompt_core_is_ap, he]
  simp

theorem trsLineErrors_p (n : Nat) (lbl : Chars) :
    IFSValidator.trsLineErrors n (chars "P:" ++ lbl ++ ['^']) = [] := by
  have hp : startsWith (chars "P:") (chars "P:" ++ lbl ++ ['^']) = true := by
    rw [List.append_assoc]
    exact startsWith_self_append _ _
  have he : endsWith ['^'] (chars "P:" ++ lbl ++ ['^']) = true := endsWith_caret _
  simp only [IFSValidator.trsLineErrors, p_core_not_cs, p_core_not_ap, hp, he]
  simp

theorem trsLineErrors_ce (n : Nat) : IFSValidator.trsLineErrors n (chars "CE:") = [] := by
  have h2 : startsWith (chars "A:Prompt^") (chars "CE:") = false := by decide
  have h3 : startsWith (chars "P:") (chars "CE:") = false := by decide
  simp [IFSValidator.trsLineErrors, ce_not_cs, h2, h3]

namespace IFSValidator

theorem lngStructScan_append (xs ys : List Chars) : ∀ n : Nat,
    lngStructScan n (xs ++ ys) = lngStructScan n xs ++ lngStructScan (n + xs.length) ys := by
  induction xs with
  | nil => intro n; simp [lngStructScan]
  | cons l xs ih =>
    intro n
    have harith : n + (xs.length + 1) = (n + 1) + xs.length := by omega
    simp only [List.cons_append, lngStructScan, List.append_eq, ih, List.append_assoc,
      List.length_cons, harith]

theorem trsStructScan_append (xs ys : List Chars) : ∀ n : Nat,
    trsStructScan n (xs ++ ys) = trsStructScan n xs ++ trsStructScan (n + xs.length) ys := by
  induction xs with
  | nil => intro n; simp [trsStructScan]
  | cons l xs ih =>
    intro n
    have harith : n + (xs.length + 1) = (n + 1) + xs.length := by omega
    simp only [List.cons_append, trsStructScan, List.append_eq, ih, List.append_assoc,
      List.length_cons, harith]

theorem lngClean_append {xs ys : List Chars} (hx : LngClean xs) (hy : LngClean ys) :
    LngClean (xs ++ ys) := by
  intro n
  rw [lngStructScan_append, hx n, hy (n + xs.length)]
  rfl

theorem trsClean_append {xs ys : List Chars} (hx : TrsClean xs) (hy : TrsClean ys) :
    TrsClean (xs ++ ys) := by
  intro n
  rw [trsStructScan_append, hx n, hy (n + xs.length)]
  rfl

theorem lngClean_flat {bs : List (List Chars)} (h : ∀ b ∈ bs, LngClean b) :
    LngClean bs.flatten := by
  induction bs with
  | nil => intro n; rfl
  | cons b bs ih =>
    rw [List.flatten_cons]
    exact lngClean_append (h b (by simp)) (ih fun q hq => h q (by simp [hq]))

theorem trsClean_flat {bs : List (List Chars)} (h : ∀ b ∈ bs, TrsClean b) :
    TrsClean bs.flatten := by
  induction bs with
  | nil => intro n; rfl
  | cons b bs ih =>
    rw [List.flatten_cons]
    exact trsClean_append (h b (by simp)) (ih fun q hq => h q (by simp [hq]))

end IFSValidator

theorem clean_col_lng (col : Column) (d : Nat) (h2 : '^' ∉ col.control) :
    IFSValidator.LngClean ((LNGGenerator.column_bodies col d).map (· ++ ['\n'])) := by
  intro n
  have hN : (chars "^LU^Column^N^N").getLast? = some 'N' := by decide
  have hcs := strip_cs_gen d col.control hN (by decide)
  have hpr := strip_prompt_line d col.label
  have hce := strip_ce_line d
  simp only [LNGGenerator.column_bodies, List.map_cons, List.map_nil,
    IFSValidator.lngStructScan, hcs, hpr, hce]
  rw [lngLineErrors_cs n col.control _ h2 (by decide), lngLineErrors_prompt,
    lngLineErrors_ce]
  rfl

theorem clean_view_lng (v : View) (d : Nat) (hv2 : '^' ∉ v.control)
    (hcols : ∀ c ∈ v.columns, '^' ∉ c.control) :
    IFSValidator.LngClean ((LNGGenerator.view_bodies v d).map (· ++ ['\n'])) := by
  intro n
  have hN : (chars "^LU^View^N^N").getLast? = some 'N' := by decide
  have hcs := strip_cs_gen d v.control hN (by decide)
  have hce := strip_ce_line d
  have hmid : IFSValidator.LngClean
      (((((v.columns.filter (·.is_custom)).map (LNGGenerator.column_bodies · (d + 1)))).flatten).map
        (· ++ ['\n'])) := by
    rw [List.map_flatten]
    apply IFSValidator.lngClean_flat
    intro b hb
    simp only [List.mem_map] at hb
    obtain ⟨bs, hbs, rfl⟩ := hb
    obtain ⟨c, hcmem, rfl⟩ := hbs
    exact clean_col_lng c (d + 1) (hcols c (List.mem_filter.mp hcmem).1)
  simp only [LNGGenerator.view_bodies, List.map_cons, List.map_append, List.map_nil,
    List.cons_append, List.append_eq, IFSValidator.lngStructScan, hcs]
  rw [lngLineErrors_cs n v.control _ hv2 (by decide), IFSValidator.lngStructScan_append,
    hmid (n + 1)]
  simp only [List.map_cons, List.map_nil, IFSValidator.lngStructScan, hce]
  rw [lngLineErrors_ce]
  rfl

theorem clean_lu_lng (lu : LogicalUnit) (d : Nat) (hl2 : '^' ∉ lu.name)
    (hviews : ∀ v ∈ lu.views, '^' ∉ v.control ∧ ∀ c ∈ v.columns, '^' ∉ c.control) :
    IFSValidator.LngClean ((LNGGenerator.lu_bodies lu d).map (· ++ ['\n'])) := by
  intro n
  have hN : (chars "^LU^Logical Unit^N^N").getLast? = some 'N' := by decide
  have hcs := strip_cs_gen d lu.name hN (by decide)
  have hpr := strip_prompt_line d lu.label
  have hce := strip_ce_line d
  have hmid : IFSValidator.LngClean
      (((lu.views.map (LNGGenerator.view_bodies · (d + 1))).flatten).map (· ++ ['\n'])) := by
    rw [List.map_flatten]
    apply IFSValidator.lngClean_flat
    intro b hb
    simp only [List.mem_map] at hb
    obtain ⟨bs, hbs, rfl⟩ := hb
    obtain ⟨v, hvmem, rfl⟩ := hbs
    exact clean_view_lng v (d + 1) (hviews v hvmem).1 (hviews v hvmem).2
  simp only [LNGGenerator.lu_bodies, List.map_cons, List.map_append, List.map_nil,
    List.cons_append, List.append_eq, IFSValidator.lngStructScan, hcs, hpr]
  rw [lngLineErrors_cs n lu.name _ hl2 (by decide), lngLineErrors_prompt,
    IFSValidator.lngStructScan_append, hmid (n + 2)]
  simp only [List.map_cons, List.map_nil, IFSValidator.lngStructScan, hce]
  rw [lngLineErrors_ce]
  rfl

theorem clean_content_lng (t : ResourceTree) (h : GoodTree t) :
    IFSValidator.LngClean ((LNGGenerator.content_bodies t).map (· ++ ['\n'])) := by
  unfold LNGGenerator.content_bodies
  rw [List.map_flatten]
  apply IFSValidator.lngClean_flat
  intro b hb
  simp only [List.mem_map] at hb
  obtain ⟨bs, hbs, rfl⟩ := hb
  obtain ⟨lu, hlu, rfl⟩ := hbs
  have hgood := h.2 lu hlu
  exact clean_lu_lng lu 0 hgood.1.2.1
    (fun v hv => ⟨(hgood.2.2 v hv).1.2.1, fun c hc => ((hgood.2.2 v hv).2 c hc).1.2.1⟩)

theorem clean_col_trs (col : Column) (tm : TranslationMap) (d : Nat) (h2 : '^' ∉ col.control) :
    IFSValidator.TrsClean ((TRSGenerator.column_bodies col tm d).map (· ++ ['\n'])) := by
  intro n
  have hU : (chars "^LU").getLast? = some 'U' := by decide
  have hcs := strip_cs_gen d col.control hU (by decide)
  have hp := strip_p_line d col.label
  have hpr := strip_prompt_line d ((List.lookup col.label tm).getD col.label)
  have hce := strip_ce_line d
  simp only [TRSGenerator.column_bodies, List.map_cons, List.map_nil,
    IFSValidator.trsStructScan, hcs, hp, hpr, hce]
  rw [trsLineErrors_cs n col.control _ h2 (by decide), trsLineErrors_p,
    trsLineErrors_prompt, trsLineErrors_ce]
  rfl

theorem clean_view_trs (v : View) (tm : TranslationMap) (d : Nat) (hv2 : '^' ∉ v.control)
    (hcols : ∀ c ∈ v.columns, '^' ∉ c.control) :
    IFSValidator.TrsClean ((TRSGenerator.view_bodies v tm d).map (· ++ ['\n'])) := by
  intro n
  have hU : (chars "^LU").getLast? = some 'U' := by decide
  have hcs := strip_cs_gen d v.control hU (by decide)
  have hce := strip_ce_line d
  have hmid : IFSValidator.TrsClean
      (((((v.columns.filter (·.is_custom)).map (TRSGenerator.column_bodies · tm (d + 1)))).flatten).map
        (· ++ ['\n'])) := by
    rw [List.map_flatten]
    apply IFSValidator.trsClean_flat
    intro b hb
    simp only [List.mem_map] at hb
    obtain ⟨bs, hbs, rfl⟩ := hb
    obtain ⟨c, hcmem, rfl⟩ := hbs
    exact clean_col_trs c tm (d + 1) (hcols c (List.mem_filter.mp hcmem).1)
  simp only [TRSGenerator.view_bodies, List.map_cons, List.map_append, List.map_nil,
    List.cons_append, List.append_eq, IFSValidator.trsStructScan, hcs]
  rw [trsLineErrors_cs n v.control _ hv2 (by decide), IFSValidator.trsStructScan_append,
    hmid (n + 1)]
  simp only [List.map_cons, List.map_nil, IFSValidator.trsStructScan, hce]
  rw [trsLineErrors_ce]
  rfl

theorem clean_lu_trs (lu : LogicalUnit) (tm : TranslationMap) (d : Nat) (hl2 : '^' ∉ lu.name)
    (hviews : ∀ v ∈ lu.views, '^' ∉ v.control ∧ ∀ c ∈ v.columns, '^' ∉ c.control) :
    IFSValidator.TrsClean ((TRSGenerator.lu_bodies lu tm d).map (· ++ ['\n'])) := by
  intro n
  have hU : (chars "^LU").getLast? = some 'U' := by decide
  have hcs := strip_cs_gen d lu.name hU (by decide)
  have hce := strip_ce_line d
  have hmid : IFSValidator.TrsClean
      (((lu.views.map (TRSGenerator.view_bodies · tm (d + 1))).flatten).map (· ++ ['\n'])) := by
    rw [List.map_flatten]
    apply IFSValidator.trsClean_flat
    intro b hb
    simp only [List.mem_map] at hb
    obtain ⟨bs, hbs, rfl⟩ := hb
    obtain ⟨v, hvmem, rfl⟩ := hbs
    exact clean_view_trs v tm (d + 1) (hviews v hvmem).1 (hviews v hvmem).2
  simp only [TRSGenerator.lu_bodies, List.map_cons, List.map_append, List.map_nil,
    List.cons_append, List.append_eq, IFSValidator.trsStructScan, hcs]
  rw [trsLineErrors_cs n lu.name _ hl2 (by decide), IFSValidator.trsStructScan_append,
    hmid (n + 1)]
  simp only [List.map_cons, List.map_nil, IFSValidator.trsStructScan, hce]
  rw [trsLineErrors_ce]
  rfl

theorem clean_content_trs (t : ResourceTree) (tm : TranslationMap) (h : GoodTree t) :
    IFSValidator.TrsClean ((TRSGenerator.content_bodies t tm).map (· ++ ['\n'])) := by
  unfold TRSGenerator.content_bodies
  rw [List.map_flatten]
  apply IFSValidator.trsClean_flat
  intro b hb
  simp only [List.mem_map] at hb
  obtain ⟨bs, hbs, rfl⟩ := hb
  obtain ⟨lu, hlu, rfl⟩ := hbs
  have hgood := h.2 lu hlu
  exact clean_lu_trs lu tm 0 hgood.1.2.1
    (fun v hv => ⟨(hgood.2.2 v hv).1.2.1, fun c hc => ((hgood.2.2 v hv).2 c hc).1.2.1⟩)

/-! ## Header recognition and content-start lemmas -/

theorem stripRight_cons {c : Char} (s : Chars) (hc : isPySpace c = false) :
    stripRight (c :: s) = c :: stripRight s := by
  unfold stripRight
  rw [List.reverse_cons, List.dropWhile_append]
  split
  · next hemp =>
    simp only [List.isEmpty_iff] at hemp
    simp [List.dropWhile_cons, hc, hemp]
  · simp [List.reverse_append]

/-- A line whose first two characters are not whitespace and not `C`, `S`
does not look like a `CS:` line after stripping. -/
theorem no_cs_line {a b : Char} (s : Chars) (ha : isPySpace a = false)
    (hb : isPySpace b = false) (hne : a ≠ 'C' ∨ b ≠ 'S') :
    startsWith (chars "CS:") (pyStrip (a :: b :: s)) = false := by
  rw [pyStrip_cons _ ha, stripRight_cons _ hb, chars_CS]
  rcases hne with h | h
  · have h' : ('C' : Char) ≠ a := fun e => h e.symm
    simp [startsWith, h']
  · have h' : ('S' : Char) ≠ b := fun e => h e.symm
    simp [startsWith, h']

namespace IFSValidator

theorem fcs_skip_all {ls : List Chars} (rest : List Chars)
    (h : ∀ l ∈ ls, startsWith (chars "CS:") (pyStrip l) = false) :
    ∀ i : Nat, find_content_start i (ls ++ rest)
      = find_content_start (i + ls.length) rest := by
  induction ls with
  | nil => intro i; simp [find_content_start]
  | cons l ls ih =>
    intro i
    have hl := h l (by simp)
    have harith : i + (l :: ls).length = (i + 1) + ls.length := by
      simp [List.length_cons]
      omega
    rw [List.cons_append, find_content_start, if_neg (by simp [hl]), harith]
    exact ih (fun q hq => h q (by simp [hq])) (i + 1)

theorem fcs_found {l : Chars} (ls : List Chars) (i : Nat)
    (h : startsWith (chars "CS:") (pyStrip l) = true) :
    find_content_start i (l :: ls) = some i := by
  rw [find_content_start, if_pos h]

end IFSValidator

theorem lng_header_no_cs (g : LNGGenerator) :
    ∀ l ∈ (LNGGenerator.header_bodies g).map (· ++ ['\n']),
      startsWith (chars "CS:") (pyStrip l) = false := by
  intro l hl
  simp only [LNGGenerator.header_bodies, List.map_cons, List.map_nil, List.mem_cons,
    List.not_mem_nil, or_false] at hl
  rcases hl with rfl | rfl | rfl | rfl | rfl | rfl | rfl | rfl | rfl | rfl
  · decide
  · decide
  · decide
  · decide
  · rw [show chars "Module: " ++ g.module ++ ['\n']
        = 'M' :: 'o' :: (chars "dule: " ++ g.module ++ ['\n']) by
      rw [show chars "Module: " = 'M' :: 'o' :: chars "dule: " from by decide]
      simp]
    exact no_cs_line _ (by decide) (by decide) (Or.inl (by decide))
  · rw [show chars "Layer: " ++ g.layer ++ ['\n']
        = 'L' :: 'a' :: (chars "yer: " ++ g.layer ++ ['\n']) by
      rw [show chars "Layer: " = 'L' :: 'a' :: chars "yer: " from by decide]
      simp]
    exact no_cs_line _ (by decide) (by decide) (Or.inl (by decide))
  · rw [show chars "Main Type: " ++ g.main_type ++ ['\n']
        = 'M' :: 'a' :: (chars "in Type: " ++ g.main_type ++ ['\n']) by
      rw [show chars "Main Type: " = 'M' :: 'a' :: chars "in Type: " from by decide]
      simp]
    exact no_cs_line _ (by decide) (by decide) (Or.inl (by decide))
  · rw [show chars "Sub Type: " ++ g.sub_type ++ ['\n']
        = 'S' :: 'u' :: (chars "b Type: " ++ g.sub_type ++ ['\n']) by
      rw [show chars "Sub Type: " = 'S' :: 'u' :: chars "b Type: " from by decide]
      simp]
    exact no_cs_line _ (by decide) (by decide) (Or.inl (by decide))
  · decide
  · decide

theorem trs_header_no_cs (g : TRSGenerator) :
    ∀ l ∈ (TRSGenerator.header_bodies g).map (· ++ ['\n']),
      startsWith (chars "CS:") (pyStrip l) = false := by
  intro l hl
  simp only [TRSGenerator.header_bodies, List.map_cons, List.map_nil, List.mem_cons,
    List.not_mem_nil, or_false] at hl
  rcases hl with rfl | rfl | rfl | rfl | rfl | rfl | rfl | rfl | rfl | rfl | rfl | rfl
  · decide
  · decide
  · decide
  · decide
  · rw [show chars "Module: " ++ g.module ++ ['\n']
        = 'M' :: 'o' :: (chars "dule: " ++ g.module ++ ['\n']) by
      rw [show chars "Module: " = 'M' :: 'o' :: chars "dule: " from by decide]
      simp]
    exact no_cs_line _ (by decide) (by decide) (Or.inl (by decide))
  · rw [show chars "Language: " ++ g.lang_code ++ ['\n']
        = 'L' :: 'a' :: (chars "nguage: " ++ g.lang_code ++ ['\n']) by
      rw [show chars "Language: " = 'L' :: 'a' :: chars "nguage: " from by decide]
      simp]
    exact no_cs_line _ (by decide) (by decide) (Or.inl (by decide))
  · rw [show chars "Culture: " ++ g.culture ++ ['\n']
        = 'C' :: 'u' :: (chars "lture: " ++ g.culture ++ ['\n']) by
      rw [show chars "Culture: " = 'C' :: 'u' :: chars "lture: " from by decide]
      simp]
    exact no_cs_line _ (by decide) (by decide) (Or.inr (by decide))
  · rw [show chars "Layer: " ++ g.layer ++ ['\n']
        = 'L' :: 'a' :: (chars "yer: " ++ g.layer ++ ['\n']) by
      rw [show chars "Layer: " = 'L' :: 'a' :: chars "yer: " from by decide]
      simp]
    exact no_cs_line _ (by decide) (by decide) (Or.inl (by decide))
  · rw [show chars "Main Type: " ++ g.main_type ++ ['\n']
        = 'M' :: 'a' :: (chars "in Type: " ++ g.main_type ++ ['\n']) by
      rw [show chars "Main Type: " = 'M' :: 'a' :: chars "in Type: " from by decide]
      simp]
    exact no_cs_line _ (by decide) (by decide) (Or.inl (by decide))
  · rw [show chars "Sub Type: " ++ g.sub_type ++ ['\n']
        = 'S' :: 'u' :: (chars "b Type: " ++ g.sub_type ++ ['\n']) by
      rw [show chars "Sub Type: " = 'S' :: 'u' :: chars "b Type: " from by decide]
      simp]
    exact no_cs_line _ (by decide) (by decide) (Or.inl (by decide))
  · decide
  · decide

theorem headerCheck_lng (g : LNGGenerator) (rest : List Chars) :
    (IFSValidator.headerCheck ((LNGGenerator.header_bodies g).map (· ++ ['\n']) ++ rest)
      true).1 = [] := by
  have hlen10 : ((LNGGenerator.header_bodies g).map (· ++ ['\n'])).length = 10 := by
    simp [LNGGenerator.header_bodies]
  have hlen : ¬(((LNGGenerator.header_bodies g).map (· ++ ['\n']) ++ rest).length < 10) := by
    rw [List.length_append, hlen10]
    omega
  have htake : ((LNGGenerator.header_bodies g).map (· ++ ['\n']) ++ rest).take 15
      = (LNGGenerator.header_bodies g).map (· ++ ['\n']) ++ rest.take 5 := by
    rw [List.take_append_eq_append_take, List.take_of_length_le (by rw [hlen10]; omega), hlen10]
  have h1 : isSub (chars "IFS Foundation Language File")
      (((LNGGenerator.header_bodies g).map (· ++ ['\n'])).flatten ++ (rest.take 5).flatten)
      = true := by
    apply isSub_append_left
    simp only [LNGGenerator.header_bodies, List.map_cons, List.map_nil, List.flatten_cons,
      List.flatten_nil]
    apply isSub_append_right
    apply isSub_append_left
    decide
  have hM : isSub (chars "Module:")
      (((LNGGenerator.header_bodies g).map (· ++ ['\n'])).flatten ++ (rest.take 5).flatten)
      = true := by
    apply isSub_append_left
    simp only [LNGGenerator.header_bodies, List.map_cons, List.map_nil, List.flatten_cons,
      List.flatten_nil]
    apply isSub_append_right
    apply isSub_append_right
    apply isSub_append_right
    apply isSub_append_right
    apply isSub_append_left
    apply isSub_append_left
    apply isSub_append_left
    decide
  have hL : isSub (chars "Layer:")
      (((LNGGenerator.header_bodies g).map (· ++ ['\n'])).flatten ++ (rest.take 5).flatten)
      = true := by
    apply isSub_append_left
    simp only [LNGGenerator.header_bodies, List.map_cons, List.map_nil, List.flatten_cons,
      List.flatten_nil]
    apply isSub_append_right
    apply isSub_append_right
    apply isSub_append_right
    apply isSub_append_right
    apply isSub_append_right
    apply isSub_append_left
    apply isSub_append_left
    apply isSub_append_left
    decide
  have hMT : isSub (chars "Main Type:")
      (((LNGGenerator.header_bodies g).map (· ++ ['\n'])).flatten ++ (rest.take 5).flatten)
      = true := by
    apply isSub_append_left
    simp only [LNGGenerator.header_bodies, List.map_cons, List.map_nil, List.flatten_cons,
      List.flatten_nil]
    apply isSub_append_right
    apply isSub_append_right
    apply isSub_append_right
    apply isSub_append_right
    apply isSub_append_right
    apply isSub_append_right
    apply isSub_append_left
    apply isSub_append_left
    apply isSub_append_left
    decide
  have hST : isSub (chars "Sub Type:")
      (((LNGGenerator.header_bodies g).map (· ++ ['\n'])).flatten ++ (rest.take 5).flatten)
      = true := by
    apply isSub_append_left
    simp only [LNGGenerator.header_bodies, List.map_cons, List.map_nil, List.flatten_cons,
      List.flatten_nil]
    apply isSub_append_right
    apply isSub_append_right
    apply isSub_append_right
    apply isSub_append_right
    apply isSub_append_right
    apply isSub_append_right
    apply isSub_append_right
    apply isSub_append_left
    apply isSub_append_left
    apply isSub_append_left
    decide
  unfold IFSValidator.headerCheck
  rw [if_neg hlen]
  simp only [htake, List.flatten_append, IFSValidator.expectedType, if_true]
  simp [List.filterMap, h1, hM, hL, hMT, hST]

theorem headerCheck_trs (g : TRSGenerator) (rest : List Chars) :
    (IFSValidator.headerCheck ((TRSGenerator.header_bodies g).map (· ++ ['\n']) ++ rest)
      false).1 = [] := by
  have hlen12 : ((TRSGenerator.header_bodies g).map (· ++ ['\n'])).length = 12 := by
    simp [TRSGenerator.header_bodies]
  have hlen : ¬(((TRSGenerator.header_bodies g).map (· ++ ['\n']) ++ rest).length < 10) := by
    rw [List.length_append, hlen12]
    omega
  have htake : ((TRSGenerator.header_bodies g).map (· ++ ['\n']) ++ rest).take 15
      = (TRSGenerator.header_bodies g).map (· ++ ['\n']) ++ rest.take 3 := by
    rw [List.take_append_eq_append_take, List.take_of_length_le (by rw [hlen12]; omega), hlen12]
  have h1 : isSub (chars "IFS Foundation Translation File")
      (((TRSGenerator.header_bodies g).map (· ++ ['\n'])).flatten ++ (rest.take 3).flatten)
      = true := by
    apply isSub_append_left
    simp only [TRSGenerator.header_bodies, List.map_cons, List.map_nil, List.flatten_cons,
      List.flatten_nil]
    apply isSub_append_right
    apply isSub_append_left
    decide
  have hM : isSub (chars "Module:")
      (((TRSGenerator.header_bodies g).map (· ++ ['\n'])).flatten ++ (rest.take 3).flatten)
      = true := by
    apply isSub_append_left
    simp only [TRSGenerator.header_bodies, List.map_cons, List.map_nil, List.flatten_cons,
      List.flatten_nil]
    apply isSub_append_right
    apply isSub_append_right
    apply isSub_append_right
    apply isSub_append_right
    apply isSub_append_left
    apply isSub_append_left
    apply isSub_append_left
    decide
  have hL : isSub (chars "Layer:")
      (((TRSGenerator.header_bodies g).map (· ++ ['\n'])).flatten ++ (rest.take 3).flatten)
      = true := by
    apply isSub_append_left
    simp only [TRSGenerator.header_bodies, List.map_cons, List.map_nil, List.flatten_cons,
      List.flatten_nil]
    apply isSub_append_right
    apply isSub_append_right
    apply isSub_append_right
    apply isSub_append_right
    apply isSub_append_right
    apply isSub_append_right
    apply isSub_append_right
    apply isSub_append_left
    apply isSub_append_left
    apply isSub_append_left
    decide
  have hMT : isSub (chars "Main Type:")
      (((TRSGenerator.header_bodies g).map (· ++ ['\n'])).flatten ++ (rest.take 3).flatten)
      = true := by
    apply isSub_append_left
    simp only [TRSGenerator.header_bodies, List.map_cons, List.map_nil, List.flatten_cons,
      List.flatten_nil]
    apply isSub_append_right
    apply isSub_append_right
    apply isSub_append_right
    apply isSub_append_right
    apply isSub_append_right
    apply isSub_append_right
    apply isSub_append_right
    apply isSub_append_right
    apply isSub_append_left
    apply isSub_append_left
    apply isSub_append_left
    decide
  have hST : isSub (chars "Sub Type:")
      (((TRSGenerator.header_bodies g).map (· ++ ['\n'])).flatten ++ (rest.take 3).flatten)
      = true := by
    apply isSub_append_left
    simp only [TRSGenerator.header_bodies, List.map_cons, List.map_nil, List.flatten_cons,
      List.flatten_nil]
    apply isSub_append_right
    apply isSub_append_right
    apply isSub_append_right
    apply isSub_append_right
    apply isSub_append_right
    apply isSub_append_right
    apply isSub_append_right
    apply isSub_append_right
    apply isSub_append_right
    apply isSub_append_left
    apply isSub_append_left
    apply isSub_append_left
    decide
  unfold IFSValidator.headerCheck
  rw [if_neg hlen]
  simp only [htake, List.flatten_append, IFSValidator.expectedType, Bool.false_eq_true,
    if_false]
  simp [List.filterMap, h1, hM, hL, hMT, hST]

/-! ## Break-free facts about generated bodies -/

theorem noBreak_append {a b : Chars} (ha : NoBreak a) (hb : NoBreak b) :
    NoBreak (a ++ b) := by
  refine ⟨?_, ?_⟩
  · simp only [List.mem_append, not_or]
    exact ⟨ha.1, hb.1⟩
  · simp only [List.mem_append, not_or]
    exact ⟨ha.2, hb.2⟩

theorem noBreak_tabs (d : Nat) : NoBreak (tabs d) := by
  refine ⟨?_, ?_⟩
  · intro h
    exact absurd (List.eq_of_mem_replicate h) (by decide)
  · intro h
    exact absurd (List.eq_of_mem_replicate h) (by decide)

theorem noBreak_cons {c : Char} {s : Chars} (hc1 : c ≠ '\r') (hc2 : c ≠ '\n')
    (hs : NoBreak s) : NoBreak (c :: s) := by
  refine ⟨?_, ?_⟩
  · simp only [List.mem_cons, not_or]
    exact ⟨fun h => hc1 h.symm, hs.1⟩
  · simp only [List.mem_cons, not_or]
    exact ⟨fun h => hc2 h.symm, hs.2⟩

theorem lookup_mem_values {tm : TranslationMap} {k v : Chars}
    (h : List.lookup k tm = some v) : ∃ k', (k', v) ∈ tm := by
  induction tm with
  | nil => simp [List.lookup] at h
  | cons p tm ih =>
    obtain ⟨k', v'⟩ := p
    rw [List.lookup_cons] at h
    by_cases hk : (k == k') = true
    · refine ⟨k', ?_⟩
      simp only [hk] at h
      obtain rfl : v' = v := by injection h
      simp
    · rw [Bool.not_eq_true] at hk
      simp only [hk] at h
      obtain ⟨k2, hk2⟩ := ih h
      exact ⟨k2, by simp [hk2]⟩

theorem nobreak_lookup (tm : TranslationMap) (l : Chars) (hl : NoBreak l)
    (htm : ∀ p ∈ tm, NoBreak p.2) : NoBreak ((List.lookup l tm).getD l) := by
  cases h : List.lookup l tm with
  | none => simpa using hl
  | some v =>
    obtain ⟨k', hk'⟩ := lookup_mem_values h
    simpa using htm (k', v) hk'

theorem nobreak_col_lng (col : Column) (d : Nat) (h1 : NoBreak col.control)
    (h2 : NoBreak col.label) : ∀ p ∈ LNGGenerator.column_bodies col d, NoBreak p := by
  intro p hp
  simp only [LNGGenerator.column_bodies, List.mem_cons, List.not_mem_nil, or_false] at hp
  rcases hp with rfl | rfl | rfl
  · exact noBreak_append (noBreak_append (noBreak_append (noBreak_tabs d) (by decide)) h1) (by decide)
  · exact noBreak_append (noBreak_tabs d) (noBreak_cons (by decide) (by decide)
      (noBreak_append (noBreak_append (by decide : NoBreak (chars "A:Prompt^")) h2) (by decide)))
  · exact noBreak_append (noBreak_tabs d) (by decide)

theorem nobreak_view_lng (v : View) (d : Nat) (h1 : NoBreak v.control)
    (hcols : ∀ c ∈ v.columns, NoBreak c.control ∧ NoBreak c.label) :
    ∀ p ∈ LNGGenerator.view_bodies v d, NoBreak p := by
  intro p hp
  simp only [LNGGenerator.view_bodies, List.mem_cons, List.mem_append,
    List.mem_flatten, List.mem_map, List.not_mem_nil, or_false] at hp
  rcases hp with (rfl | ⟨bs, ⟨c, hcmem, rfl⟩, hpbs⟩) | rfl
  · exact noBreak_append (noBreak_append (noBreak_append (noBreak_tabs d) (by decide)) h1) (by decide)
  · have hc := hcols c (List.mem_filter.mp hcmem).1
    exact nobreak_col_lng c (d + 1) hc.1 hc.2 p hpbs
  · exact noBreak_append (noBreak_tabs d) (by decide)

theorem nobreak_lu_lng (lu : LogicalUnit) (d : Nat) (h1 : NoBreak lu.name)
    (h2 : NoBreak lu.label)
    (hviews : ∀ v ∈ lu.views, NoBreak v.control ∧
      ∀ c ∈ v.columns, NoBreak c.control ∧ NoBreak c.label) :
    ∀ p ∈ LNGGenerator.lu_bodies lu d, NoBreak p := by
  intro p hp
  simp only [LNGGenerator.lu_bodies, List.mem_cons, List.mem_append,
    List.mem_flatten, List.mem_map, List.not_mem_nil, or_false] at hp
  rcases hp with rfl | rfl | ⟨bs, ⟨v, hvmem, rfl⟩, hpbs⟩ | rfl
  · exact noBreak_append (noBreak_append (noBreak_append (noBreak_tabs d) (by decide)) h1) (by decide)
  · exact noBreak_append (noBreak_tabs d) (noBreak_cons (by decide) (by decide)
      (noBreak_append (noBreak_append (by decide : NoBreak (chars "A:Prompt^")) h2) (by decide)))
  · exact nobreak_view_lng v (d + 1) (hviews v hvmem).1 (hviews v hvmem).2 p hpbs
  · exact noBreak_append (noBreak_tabs d) (by decide)

theorem nobreak_content_lng (t : ResourceTree) (h : GoodTree t) :
    ∀ p ∈ LNGGenerator.content_bodies t, NoBreak p := by
  intro p hp
  simp only [LNGGenerator.content_bodies, List.mem_flatten, List.mem_map] at hp
  obtain ⟨bs, ⟨lu, hlu, rfl⟩, hpbs⟩ := hp
  have hg := h.2 lu hlu
  refine nobreak_lu_lng lu 0 ⟨hg.1.2.2.1, hg.1.2.2.2⟩ hg.2.1 ?_ p hpbs
  intro v hv
  have hvg := hg.2.2 v hv
  exact ⟨⟨hvg.1.2.2.1, hvg.1.2.2.2⟩,
    fun c hc => ⟨⟨(hvg.2 c hc).1.2.2.1, (hvg.2 c hc).1.2.2.2⟩, (hvg.2 c hc).2⟩⟩

theorem nobreak_col_trs (col : Column) (tm : TranslationMap) (d : Nat)
    (h1 : NoBreak col.control) (h2 : NoBreak col.label)
    (htm : ∀ p ∈ tm, NoBreak p.2) :
    ∀ p ∈ TRSGenerator.column_bodies col tm d, NoBreak p := by
  intro p hp
  simp only [TRSGenerator.column_bodies, List.mem_cons, List.not_mem_nil, or_false] at hp
  rcases hp with rfl | rfl | rfl | rfl
  · exact noBreak_append (noBreak_append (noBreak_append (noBreak_tabs d) (by decide)) h1) (by decide)
  · exact noBreak_append (noBreak_tabs d) (noBreak_cons (by decide) (by decide)
      (noBreak_append (noBreak_append (by decide : NoBreak (chars "P:")) h2) (by decide)))
  · exact noBreak_append (noBreak_tabs d) (noBreak_cons (by decide) (by decide)
      (noBreak_append (noBreak_append (by decide : NoBreak (chars "A:Prompt^"))
        (nobreak_lookup tm col.label h2 htm)) (by decide)))
  · exact noBreak_append (noBreak_tabs d) (by decide)

theorem nobreak_view_trs (v : View) (tm : TranslationMap) (d : Nat)
    (h1 : NoBreak v.control)
    (hcols : ∀ c ∈ v.columns, NoBreak c.control ∧ NoBreak c.label)
    (htm : ∀ p ∈ tm, NoBreak p.2) :
    ∀ p ∈ TRSGenerator.view_bodies v tm d, NoBreak p := by
  intro p hp
  simp only [TRSGenerator.view_bodies, List.mem_cons, List.mem_append,
    List.mem_flatten, List.mem_map, List.not_mem_nil, or_false] at hp
  rcases hp with (rfl | ⟨bs, ⟨c, hcmem, rfl⟩, hpbs⟩) | rfl
  · exact noBreak_append (noBreak_append (noBreak_append (noBreak_tabs d) (by decide)) h1) (by decide)
  · have hc := hcols c (List.mem_filter.mp hcmem).1
    exact nobreak_col_trs c tm (d + 1) hc.1 hc.2 htm p hpbs
  · exact noBreak_append (noBreak_tabs d) (by decide)

theorem nobreak_lu_trs (lu : LogicalUnit) (tm : TranslationMap) (d : Nat)
    (h1 : NoBreak lu.name)
    (hviews : ∀ v ∈ lu.views, NoBreak v.control ∧
      ∀ c ∈ v.columns, NoBreak c.control ∧ NoBreak c.label)
    (htm : ∀ p ∈ tm, NoBreak p.2) :
    ∀ p ∈ TRSGenerator.lu_bodies lu tm d, NoBreak p := by
  intro p hp
  simp only [TRSGenerator.lu_bodies, List.mem_cons, List.mem_append,
    List.mem_flatten, List.mem_map, List.not_mem_nil, or_false] at hp
  rcases hp with rfl | ⟨bs, ⟨v, hvmem, rfl⟩, hpbs⟩ | rfl
  · exact noBreak_append (noBreak_append (noBreak_append (noBreak_tabs d) (by decide)) h1) (by decide)
  · exact nobreak_view_trs v tm (d + 1) (hviews v hvmem).1 (hviews v hvmem).2 htm p hpbs
  · exact noBreak_append (noBreak_tabs d) (by decide)

theorem nobreak_content_trs (t : ResourceTree) (tm : TranslationMap) (h : GoodTree t)
    (htm : ∀ p ∈ tm, NoBreak p.2) :
    ∀ p ∈ TRSGenerator.content_bodies t tm, NoBreak p := by
  intro p hp
  simp only [TRSGenerator.content_bodies, List.mem_flatten, List.mem_map] at hp
  obtain ⟨bs, ⟨lu, hlu, rfl⟩, hpbs⟩ := hp
  have hg := h.2 lu hlu
  refine nobreak_lu_trs lu tm 0 ⟨hg.1.2.2.1, hg.1.2.2.2⟩ ?_ htm p hpbs
  intro v hv
  have hvg := hg.2.2 v hv
  exact ⟨⟨hvg.1.2.2.1, hvg.1.2.2.2⟩,
    fun c hc => ⟨⟨(hvg.2 c hc).1.2.2.1, (hvg.2 c hc).1.2.2.2⟩, (hvg.2 c hc).2⟩⟩

theorem nobreak_lang_code (g : TRSGenerator) (h : NoBreak g.language) :
    NoBreak g.lang_code := by
  unfold TRSGenerator.lang_code
  split
  · decide
  · split
    · decide
    · refine ⟨?_, ?_⟩
      · intro hm
        exact h.1 ((List.takeWhile_sublist _).subset hm)
      · intro hm
        exact h.2 ((List.takeWhile_sublist _).subset hm)

theorem nobreak_header_lng (g : LNGGenerator) (h1 : NoBreak g.module)
    (h2 : NoBreak g.layer) (h3 : NoBreak g.main_type) (h4 : NoBreak g.sub_type) :
    ∀ p ∈ LNGGenerator.header_bodies g, NoBreak p := by
  intro p hp
  simp only [LNGGenerator.header_bodies, List.mem_cons, List.not_mem_nil, or_false] at hp
  rcases hp with rfl | rfl | rfl | rfl | rfl | rfl | rfl | rfl | rfl | rfl
  · decide
  · decide
  · decide
  · decide
  · exact noBreak_append (by decide : NoBreak (chars "Module: ")) h1
  · exact noBreak_append (by decide : NoBreak (chars "Layer: ")) h2
  · exact noBreak_append (by decide : NoBreak (chars "Main Type: ")) h3
  · exact noBreak_append (by decide : NoBreak (chars "Sub Type: ")) h4
  · decide
  · decide

theorem nobreak_header_trs (g : TRSGenerator) (h1 : NoBreak g.module)
    (h2 : NoBreak g.layer) (h3 : NoBreak g.language) (h4 : NoBreak g.main_type)
    (h5 : NoBreak g.sub_type) :
    ∀ p ∈ TRSGenerator.header_bodies g, NoBreak p := by
  intro p hp
  simp only [TRSGenerator.header_bodies, List.mem_cons, List.not_mem_nil, or_false] at hp
  rcases hp with rfl | rfl | rfl | rfl | rfl | rfl | rfl | rfl | rfl | rfl | rfl | rfl
  · decide
  · decide
  · decide
  · decide
  · exact noBreak_append (by decide : NoBreak (chars "Module: ")) h1
  · exact noBreak_append (by decide : NoBreak (chars "Language: ")) (nobreak_lang_code g h3)
  · exact noBreak_append (by decide : NoBreak (chars "Culture: ")) h3
  · exact noBreak_append (by decide : NoBreak (chars "Layer: ")) h2
  · exact noBreak_append (by decide : NoBreak (chars "Main Type: ")) h4
  · exact noBreak_append (by decide : NoBreak (chars "Sub Type: ")) h5
  · decide
  · decide

/-! ## Round-trip: generated files validate cleanly -/

theorem roundtrip_lng (g : LNGGenerator) (t : ResourceTree)
    (hmod : NoBreak g.module) (hlay : NoBreak g.layer)
    (hmt : NoBreak g.main_type) (hst : NoBreak g.sub_type)
    (ht : GoodTree t) :
    (IFSValidator.validate_file (chars ".lng") (g.generate_file t)).1 = true ∧
    (IFSValidator.validate_file (chars ".lng") (g.generate_file t)).2.1 = [] ∧
    IFSValidator.pairingScan 11 []
      ((LNGGenerator.content_bodies t).map (· ++ ['\n'])) = ([], []) := by
  have hNeutral := neutral_content_lng t ht
  have hfile : g.generate_file t
      = ((LNGGenerator.header_bodies g ++ LNGGenerator.content_bodies t).map
          (· ++ crlf)).flatten := by
    unfold LNGGenerator.generate_file LNGGenerator.generate_header
      LNGGenerator.generate_content LNGGenerator.content_lines
    rw [List.map_append, List.flatten_append]
  have hnb : ∀ p ∈ LNGGenerator.header_bodies g ++ LNGGenerator.content_bodies t,
      '\r' ∉ p ∧ '\n' ∉ p := by
    intro p hp
    rcases List.mem_append.mp hp with hp | hp
    · exact nobreak_header_lng g hmod hlay hmt hst p hp
    · exact nobreak_content_lng t ht p hp
  have hlines : pyLines (univNewlines (g.generate_file t))
      = (LNGGenerator.header_bodies g).map (· ++ ['\n'])
        ++ (LNGGenerator.content_bodies t).map (· ++ ['\n']) := by
    rw [hfile, pyLines_univ _ hnb, List.map_append]
  have hlen10 : ((LNGGenerator.header_bodies g).map (· ++ ['\n'])).length = 10 := by
    simp [LNGGenerator.header_bodies]
  obtain ⟨lu, lus, hlus⟩ : ∃ lu lus, t.logical_units = lu :: lus := by
    cases hl : t.logical_units with
    | nil => exact absurd hl ht.1
    | cons a b => exact ⟨a, b, rfl⟩
  have hcontent : LNGGenerator.content_bodies t
      = LNGGenerator.lu_bodies lu 0 ++ (lus.map (LNGGenerator.lu_bodies · 0)).flatten := by
    unfold LNGGenerator.content_bodies
    rw [hlus]
    simp
  have hN : (chars "^LU^Logical Unit^N^N").getLast? = some 'N' := by decide
  have hfirst : startsWith (chars "CS:")
      (pyStrip ((tabs 0 ++ chars "CS:" ++ lu.name ++ chars "^LU^Logical Unit^N^N")
        ++ ['\n'])) = true := by
    rw [strip_cs_gen 0 lu.name hN (by decide)]
    exact cs_core_is_cs _ _
  have hstart : IFSValidator.find_content_start 0
      ((LNGGenerator.header_bodies g).map (· ++ ['\n'])
        ++ (LNGGenerator.content_bodies t).map (· ++ ['\n'])) = some 10 := by
    rw [IFSValidator.fcs_skip_all _ (lng_header_no_cs g) 0, hlen10, hcontent]
    simp only [Nat.zero_add, LNGGenerator.lu_bodies, List.cons_append, List.map_append,
      List.map_cons]
    exact IFSValidator.fcs_found _ _ hfirst
  have hdrop : (((LNGGenerator.header_bodies g).map (· ++ ['\n'])
        ++ (LNGGenerator.content_bodies t).map (· ++ ['\n']))).drop 10
      = (LNGGenerator.content_bodies t).map (· ++ ['\n']) := by
    rw [← hlen10, List.drop_left]
  have hpair : IFSValidator.cs_ce_errors 10
      ((LNGGenerator.content_bodies t).map (· ++ ['\n'])) = [] := by
    unfold IFSValidator.cs_ce_errors
    have h11 : (10 : Nat) + 1 = 11 := rfl
    rw [h11, hNeutral 11 []]
    rfl
  have hstruct : IFSValidator.lngStructScan (10 + 1)
      ((LNGGenerator.content_bodies t).map (· ++ ['\n'])) = [] :=
    clean_content_lng t ht 11
  have herrs : IFSValidator.allErrors true
      ((LNGGenerator.header_bodies g).map (· ++ ['\n'])
        ++ (LNGGenerator.content_bodies t).map (· ++ ['\n'])) 10 = [] := by
    unfold IFSValidator.allErrors
    rw [hdrop, headerCheck_lng g, hpair, if_pos rfl, hstruct]
    rfl
  have hres : IFSValidator.validate_file (chars ".lng") (g.generate_file t)
      = (true, [],
         (IFSValidator.headerCheck ((LNGGenerator.header_bodies g).map (· ++ ['\n'])
            ++ (LNGGenerator.content_bodies t).map (· ++ ['\n'])) true).2
          ++ IFSValidator.indentScan (10 + 1)
              ((LNGGenerator.content_bodies t).map (· ++ ['\n']))) := by
    unfold IFSValidator.validate_file
    rw [if_neg (by simp), hlines]
    unfold IFSValidator.vcore
    rw [hstart]
    rw [Option.elim_some]
    have hb : (decide (chars ".lng" = chars ".lng")) = true := by decide
    rw [hb, herrs, hdrop]
    simp
  exact ⟨by rw [hres], by rw [hres], hNeutral 11 []⟩

theorem roundtrip_trs (g : TRSGenerator) (t : ResourceTree) (tm : TranslationMap)
    (hmod : NoBreak g.module) (hlay : NoBreak g.layer) (hlang : NoBreak g.language)
    (hmt : NoBreak g.main_type) (hst : NoBreak g.sub_type)
    (ht : GoodTree t) (htm : ∀ p ∈ tm, NoBreak p.2) :
    (IFSValidator.validate_file (chars ".trs") (g.generate_file t tm)).1 = true ∧
    (IFSValidator.validate_file (chars ".trs") (g.generate_file t tm)).2.1 = [] ∧
    IFSValidator.pairingScan 13 []
      ((TRSGenerator.content_bodies t tm).map (· ++ ['\n'])) = ([], []) := by
  have hNeutral := neutral_content_trs t tm ht
  have hfile : g.generate_file t tm
      = ((TRSGenerator.header_bodies g ++ TRSGenerator.content_bodies t tm).map
          (· ++ crlf)).flatten := by
    unfold TRSGenerator.generate_file TRSGenerator.generate_header
      TRSGenerator.generate_content TRSGenerator.content_lines
    rw [List.map_append, List.flatten_append]
  have hnb : ∀ p ∈ TRSGenerator.header_bodies g ++ TRSGenerator.content_bodies t tm,
      '\r' ∉ p ∧ '\n' ∉ p := by
    intro p hp
    rcases List.mem_append.mp hp with hp | hp
    · exact nobreak_header_trs g hmod hlay hlang hmt hst p hp
    · exact nobreak_content_trs t tm ht htm p hp
  have hlines : pyLines (univNewlines (g.generate_file t tm))
      = (TRSGenerator.header_bodies g).map (· ++ ['\n'])
        ++ (TRSGenerator.content_bodies t tm).map (· ++ ['\n']) := by
    rw [hfile, pyLines_univ _ hnb, List.map_append]
  have hlen12 : ((TRSGenerator.header_bodies g).map (· ++ ['\n'])).length = 12 := by
    simp [TRSGenerator.header_bodies]
  obtain ⟨lu, lus, hlus⟩ : ∃ lu lus, t.logical_units = lu :: lus := by
    cases hl : t.logical_units with
    | nil => exact absurd hl ht.1
    | cons a b => exact ⟨a, b, rfl⟩
  have hcontent : TRSGenerator.content_bodies t tm
      = TRSGenerator.lu_bodies lu tm 0
        ++ (lus.map (TRSGenerator.lu_bodies · tm 0)).flatten := by
    unfold TRSGenerator.content_bodies
    rw [hlus]
    simp
  have hU : (chars "^LU").getLast? = some 'U' := by decide
  have hfirst : startsWith (chars "CS:")
      (pyStrip ((tabs 0 ++ chars "CS:" ++ lu.name ++ chars "^LU") ++ ['\n'])) = true := by
    rw [strip_cs_gen 0 lu.name hU (by decide)]
    exact cs_core_is_cs _ _
  have hstart : IFSValidator.find_content_start 0
      ((TRSGenerator.header_bodies g).map (· ++ ['\n'])
        ++ (TRSGenerator.content_bodies t tm).map (· ++ ['\n'])) = some 12 := by
    rw [IFSValidator.fcs_skip_all _ (trs_header_no_cs g) 0, hlen12, hcontent]
    simp only [Nat.zero_add, TRSGenerator.lu_bodies, List.cons_append, List.map_append,
      List.map_cons]
    exact IFSValidator.fcs_found _ _ hfirst
  have hdrop : (((TRSGenerator.header_bodies g).map (· ++ ['\n'])
        ++ (TRSGenerator.content_bodies t tm).map (· ++ ['\n']))).drop 12
      = (TRSGenerator.content_bodies t tm).map (· ++ ['\n']) := by
    rw [← hlen12, List.drop_left]
  have hpair : IFSValidator.cs_ce_errors 12
      ((TRSGenerator.content_bodies t tm).map (· ++ ['\n'])) = [] := by
    unfold IFSValidator.cs_ce_errors
    have h13 : (12 : Nat) + 1 = 13 := rfl
    rw [h13, hNeutral 13 []]
    rfl
  have hstruct : IFSValidator.trsStructScan (12 + 1)
      ((TRSGenerator.content_bodies t tm).map (· ++ ['\n'])) = [] :=
    clean_content_trs t tm ht 13
  have herrs : IFSValidator.allErrors false
      ((TRSGenerator.header_bodies g).map (· ++ ['\n'])
        ++ (TRSGenerator.content_bodies t tm).map (· ++ ['\n'])) 12 = [] := by
    unfold IFSValidator.allErrors
    rw [hdrop, headerCheck_trs g, hpair]
    rw [if_neg (by simp)]
    rw [hstruct]
    rfl
  have hres : IFSValidator.validate_file (chars ".trs") (g.generate_file t tm)
      = (true, [],
         (IFSValidator.headerCheck ((TRSGenerator.header_bodies g).map (· ++ ['\n'])
            ++ (TRSGenerator.content_bodies t tm).map (· ++ ['\n'])) false).2
          ++ IFSValidator.indentScan (12 + 1)
              ((TRSGenerator.content_bodies t tm).map (· ++ ['\n']))) := by
    unfold IFSValidator.validate_file
    rw [if_neg (by simp), hlines]
    unfold IFSValidator.vcore
    rw [hstart]
    rw [Option.elim_some]
    have hb : (decide (chars ".trs" = chars ".lng")) = false := by decide
    rw [hb, herrs, hdrop]
    simp
  exact ⟨by rw [hres], by rw [hres], hNeutral 13 []⟩

/-! ## Shapes of emitted lines (for the field-count contract) -/

theorem strip_cs_crlf {suf : Chars} {z : Char} (d : Nat) (x : Chars)
    (hsl : suf.getLast? = some z) (hz : isPySpace z = false) :
    pyStrip ((tabs d ++ chars "CS:" ++ x ++ suf) ++ crlf) = chars "CS:" ++ x ++ suf := by
  rw [show tabs d ++ chars "CS:" ++ x ++ suf = tabs d ++ (chars "CS:" ++ x ++ suf) by
    simp [List.append_assoc]]
  have hh : (chars "CS:" ++ x ++ suf).head? = some 'C' := by
    rw [chars_CS]
    simp
  have hl : (chars "CS:" ++ x ++ suf).getLast? = some z := by
    rw [List.getLast?_append, hsl]
    rfl
  exact pyStrip_sandwich (tabs d) _ crlf (tabs_space d) (by decide) hh (by decide) hl hz

theorem strip_prompt_crlf (d : Nat) (lbl : Chars) :
    pyStrip ((tabs d ++ '\t' :: (chars "A:Prompt^" ++ lbl ++ ['^'])) ++ crlf)
      = chars "A:Prompt^" ++ lbl ++ ['^'] := by
  rw [show tabs d ++ '\t' :: (chars "A:Prompt^" ++ lbl ++ ['^'])
      = (tabs d ++ ['\t']) ++ (chars "A:Prompt^" ++ lbl ++ ['^']) by simp]
  have hh : (chars "A:Prompt^" ++ lbl ++ ['^']).head? = some 'A' := by
    rw [chars_AP]
    simp
  have hl : (chars "A:Prompt^" ++ lbl ++ ['^']).getLast? = some '^' := by
    rw [List.getLast?_append]
    rfl
  exact pyStrip_sandwich (tabs d ++ ['\t']) _ crlf (tabs_space' d) (by decide) hh (by decide)
    hl (by decide)

theorem strip_p_crlf (d : Nat) (lbl : Chars) :
    pyStrip ((tabs d ++ '\t' :: (chars "P:" ++ lbl ++ ['^'])) ++ crlf)
      = chars "P:" ++ lbl ++ ['^'] := by
  rw [show tabs d ++ '\t' :: (chars "P:" ++ lbl ++ ['^'])
      = (tabs d ++ ['\t']) ++ (chars "P:" ++ lbl ++ ['^']) by simp]
  have hh : (chars "P:" ++ lbl ++ ['^']).head? = some 'P' := by
    rw [chars_Pc]
    simp
  have hl : (chars "P:" ++ lbl ++ ['^']).getLast? = some '^' := by
    rw [List.getLast?_append]
    rfl
  exact pyStrip_sandwich (tabs d ++ ['\t']) _ crlf (tabs_space' d) (by decide) hh (by decide)
    hl (by decide)

theorem strip_ce_crlf (d : Nat) :
    pyStrip ((tabs d ++ chars "CE:") ++ crlf) = chars "CE:" := by
  exact @pyStrip_sandwich (tabs d) (chars "CE:") crlf 'C' ':' (tabs_space d) (by decide)
    (by decide) (by decide) (by decide) (by decide)

theorem cs_excl_ap {s : Chars} (h : startsWith (chars "CS:") s = true) :
    startsWith (chars "A:Prompt^") s = false := by
  cases s with
  | nil => rw [chars_CS] at h; simp [startsWith] at h
  | cons c cs =>
    rw [chars_CS] at h
    simp only [startsWith, Bool.and_eq_true, decide_eq_true_eq] at h
    obtain rfl : c = 'C' := h.1.symm
    rw [chars_AP]
    exact startsWith_cons_false _ _ (by decide)

/-- Every line the definition encoder emits is a CS line with a caret-free
identifier and a four-caret tail, a prompt line, or a CE line. -/
theorem content_shape_lng {t : ResourceTree} (hcar : CaretFreeIds t)
    {p : Chars} (hp : p ∈ LNGGenerator.content_bodies t) :
    (∃ d x suf, '^' ∉ x ∧ suf.count '^' = 4 ∧ suf.getLast? = some 'N' ∧
      p = tabs d ++ chars "CS:" ++ x ++ suf)
    ∨ (∃ d lbl, p = tabs d ++ '\t' :: (chars "A:Prompt^" ++ lbl ++ ['^']))
    ∨ (∃ d, p = tabs d ++ chars "CE:") := by
  simp only [LNGGenerator.content_bodies, List.mem_flatten, List.mem_map] at hp
  obtain ⟨bs, ⟨lu, hlu, rfl⟩, hpbs⟩ := hp
  have hg := hcar lu hlu
  simp only [LNGGenerator.lu_bodies, List.mem_cons, List.mem_append,
    List.mem_flatten, List.mem_map, List.not_mem_nil, or_false] at hpbs
  rcases hpbs with rfl | rfl | ⟨vs, ⟨v, hvmem, rfl⟩, hpv⟩ | rfl
  · exact Or.inl ⟨_, lu.name, _, hg.1, by decide, by decide, rfl⟩
  · exact Or.inr (Or.inl ⟨_, lu.label, rfl⟩)
  · have hvg := hg.2 v hvmem
    simp only [LNGGenerator.view_bodies, List.mem_cons, List.mem_append,
      List.mem_flatten, List.mem_map, List.not_mem_nil, or_false] at hpv
    rcases hpv with (rfl | ⟨cs, ⟨c, hcmem, rfl⟩, hpc⟩) | rfl
    · exact Or.inl ⟨_, v.control, _, hvg.1, by decide, by decide, rfl⟩
    · have hcg := hvg.2 c (List.mem_filter.mp hcmem).1
      simp only [LNGGenerator.column_bodies, List.mem_cons, List.not_mem_nil, or_false] at hpc
      rcases hpc with rfl | rfl | rfl
      · exact Or.inl ⟨_, c.control, _, hcg, by decide, by decide, rfl⟩
      · exact Or.inr (Or.inl ⟨_, c.label, rfl⟩)
      · exact Or.inr (Or.inr ⟨_, rfl⟩)
    · exact Or.inr (Or.inr ⟨_, rfl⟩)
  · exact Or.inr (Or.inr ⟨_, rfl⟩)

/-- Every line the translation encoder emits is a CS line with a caret-free
identifier and a one-caret tail, a P line, a prompt line, or a CE line. -/
theorem content_shape_trs {t : ResourceTree} {tm : TranslationMap} (hcar : CaretFreeIds t)
    {p : Chars} (hp : p ∈ TRSGenerator.content_bodies t tm) :
    (∃ d x suf, '^' ∉ x ∧ suf.count '^' = 1 ∧ suf.getLast? = some 'U' ∧
      p = tabs d ++ chars "CS:" ++ x ++ suf)
    ∨ (∃ d lbl, p = tabs d ++ '\t' :: (chars "P:" ++ lbl ++ ['^']))
    ∨ (∃ d lbl, p = tabs d ++ '\t' :: (chars "A:Prompt^" ++ lbl ++ ['^']))
    ∨ (∃ d, p = tabs d ++ chars "CE:") := by
  simp only [TRSGenerator.content_bodies, List.mem_flatten, List.mem_map] at hp
  obtain ⟨bs, ⟨lu, hlu, rfl⟩, hpbs⟩ := hp
  have hg := hcar lu hlu
  simp only [TRSGenerator.lu_bodies, List.mem_cons, List.mem_append,
    List.mem_flatten, List.mem_map, List.not_mem_nil, or_false] at hpbs
  rcases hpbs with rfl | ⟨vs, ⟨v, hvmem, rfl⟩, hpv⟩ | rfl
  · exact Or.inl ⟨_, lu.name, _, hg.1, by decide, by decide, rfl⟩
  · have hvg := hg.2 v hvmem
    simp only [TRSGenerator.view_bodies, List.mem_cons, List.mem_append,
      List.mem_flatten, List.mem_map, List.not_mem_nil, or_false] at hpv
    rcases hpv with (rfl | ⟨cs, ⟨c, hcmem, rfl⟩, hpc⟩) | rfl
    · exact Or.inl ⟨_, v.control, _, hvg.1, by decide, by decide, rfl⟩
    · have hcg := hvg.2 c (List.mem_filter.mp hcmem).1
      simp only [TRSGenerator.column_bodies, List.mem_cons, List.not_mem_nil, or_false] at hpc
      rcases hpc with rfl | rfl | rfl | rfl
      · exact Or.inl ⟨_, c.control, _, hcg, by decide, by decide, rfl⟩
      · exact Or.inr (Or.inl ⟨_, c.label, rfl⟩)
      · exact Or.inr (Or.inr (Or.inl ⟨_, _, rfl⟩))
      · exact Or.inr (Or.inr (Or.inr ⟨_, rfl⟩))
    · exact Or.inr (Or.inr (Or.inr ⟨_, rfl⟩))
  · exact Or.inr (Or.inr (Or.inr ⟨_, rfl⟩))

theorem goodTree_of {t : ResourceTree} (h1 : ClaimTreeHyp t) (h2 : NamesNonempty t) :
    GoodTree t := by
  refine ⟨h1.1, fun lu hlu => ?_⟩
  have ha := h1.2 lu hlu
  have hb := h2 lu hlu
  refine ⟨⟨hb.1, ha.1.1, ha.1.2⟩, ha.2.1.2, fun v hv => ?_⟩
  have hav := ha.2.2 v hv
  have hbv := hb.2 v hv
  refine ⟨⟨hbv.1, hav.1.1, hav.1.2⟩, fun c hc => ?_⟩
  have hac := hav.2.2 c hc
  have hbc := hbv.2 c hc
  exact ⟨⟨hbc, hac.1.1, hac.1.2⟩, hac.2.1.2⟩

/-! ## Claim theorems -/

/-- C1 (amended): for every ResourceTree filtered to custom-only columns, with
at least one logical unit, every name/label free of `^` and line breaks, and —
as the counterexample forces — every node identifier nonempty and every
translation-map value free of line breaks, generating the definition file and
the translation file and validating each written file yields is_valid = true
with an empty error list, and the CS/CE nesting stack is empty at end of
scan. -/
theorem C1_roundtrip_soundness
    (g : LNGGenerator) (h : TRSGenerator) (t : ResourceTree) (tm : TranslationMap)
    (hg1 : NoBreak g.module) (hg2 : NoBreak g.layer)
    (hg3 : NoBreak g.main_type) (hg4 : NoBreak g.sub_type)
    (hh1 : NoBreak h.module) (hh2 : NoBreak h.layer) (hh3 : NoBreak h.language)
    (hh4 : NoBreak h.main_type) (hh5 : NoBreak h.sub_type)
    (ht : ClaimTreeHyp t) (hne : NamesNonempty t)
    (htm : ∀ p ∈ tm, NoBreak p.2) :
    (IFSValidator.validate_file (chars ".lng") (g.generate_file t)).1 = true
    ∧ (IFSValidator.validate_file (chars ".lng") (g.generate_file t)).2.1 = []
    ∧ IFSValidator.pairingScan 11 []
        ((LNGGenerator.content_bodies t).map (· ++ ['\n'])) = ([], [])
    ∧ (IFSValidator.validate_file (chars ".trs") (h.generate_file t tm)).1 = true
    ∧ (IFSValidator.validate_file (chars ".trs") (h.generate_file t tm)).2.1 = []
    ∧ IFSValidator.pairingScan 13 []
        ((TRSGenerator.content_bodies t tm).map (· ++ ['\n'])) = ([], []) := by
  have hGood := goodTree_of ht hne
  obtain ⟨a1, a2, a3⟩ := roundtrip_lng g t hg1 hg2 hg3 hg4 hGood
  obtain ⟨b1, b2, b3⟩ := roundtrip_trs h t tm hh1 hh2 hh3 hh4 hh5 hGood htm
  exact ⟨a1, a2, a3, b1, b2, b3⟩

theorem C1_roundtrip_soundness_witness :
    (IFSValidator.validate_file (chars ".lng") (lngESSPRO.generate_file scenarioTree)).1 = true
    ∧ (IFSValidator.validate_file (chars ".lng") (lngESSPRO.generate_file scenarioTree)).2.1 = []
    ∧ IFSValidator.pairingScan 11 []
        ((LNGGenerator.content_bodies scenarioTree).map (· ++ ['\n'])) = ([], [])
    ∧ (IFSValidator.validate_file (chars ".trs") (trsSvSE.generate_file scenarioTree svMap)).1 = true
    ∧ (IFSValidator.validate_file (chars ".trs") (trsSvSE.generate_file scenarioTree svMap)).2.1 = []
    ∧ IFSValidator.pairingScan 13 []
        ((TRSGenerator.content_bodies scenarioTree svMap).map (· ++ ['\n'])) = ([], []) :=
  C1_roundtrip_soundness lngESSPRO trsSvSE scenarioTree svMap
    (by decide) (by decide) (by decide) (by decide)
    (by decide) (by decide) (by decide) (by decide) (by decide)
    (by decide) (by decide) (by decide)

/-- C1 counterexample: the claim as stated is false. `emptyNameTree` satisfies
every stated hypothesis (custom-only, one logical unit, names and labels free
of `^` and line breaks) yet its generated definition file fails validation;
and `scenarioTree` with the translation map `badValueMap` (the claim
quantifies over all maps) yields a translation file that fails validation. -/
theorem C1_roundtrip_soundness_counterexample :
    ClaimTreeHyp emptyNameTree
    ∧ (IFSValidator.validate_file (chars ".lng")
        (lngESSPRO.generate_file emptyNameTree)).1 = false
    ∧ (IFSValidator.validate_file (chars ".lng")
        (lngESSPRO.generate_file emptyNameTree)).2.1 ≠ []
    ∧ ClaimTreeHyp scenarioTree
    ∧ (IFSValidator.validate_file (chars ".trs")
        (trsSvSE.generate_file scenarioTree badValueMap)).1 = false
    ∧ (IFSValidator.validate_file (chars ".trs")
        (trsSvSE.generate_file scenarioTree badValueMap)).2.1 ≠ [] := by
  refine ⟨by decide, by decide, by decide, by decide, by decide, by decide⟩

/-- C2: for the scenario-A tree, `generate_content` for the definition kind
(module ESSPRO, layer Cust) returns exactly the specified string, the file is
that string appended after the header, and the resulting file validates with
zero errors. -/
theorem C2_scenarioA :
    LNGGenerator.generate_content scenarioTree
      = chars "CS:TestLU^LU^Logical Unit^N^N\r\n\tA:Prompt^Test Logical Unit^\r\n\tCS:TEST_VIEW^LU^View^N^N\r\n\t\tCS:C_TEST_FIELD^LU^Column^N^N\r\n\t\t\tA:Prompt^Test Field^\r\n\t\tCE:\r\n\tCE:\r\nCE:\r\n"
    ∧ lngESSPRO.generate_file scenarioTree
      = lngESSPRO.generate_header
        ++ chars "CS:TestLU^LU^Logical Unit^N^N\r\n\tA:Prompt^Test Logical Unit^\r\n\tCS:TEST_VIEW^LU^View^N^N\r\n\t\tCS:C_TEST_FIELD^LU^Column^N^N\r\n\t\t\tA:Prompt^Test Field^\r\n\t\tCE:\r\n\tCE:\r\nCE:\r\n"
    ∧ (IFSValidator.validate_file (chars ".lng") (lngESSPRO.generate_file scenarioTree)).1 = true
    ∧ (IFSValidator.validate_file (chars ".lng") (lngESSPRO.generate_file scenarioTree)).2.1 = [] := by
  refine ⟨by decide, by decide, by decide, by decide⟩

/-- C3 counterexample: in scenario B the column block emitted by TRSGenerator
is not the claimed string (the claimed indentation is wrong), and the claimed
string does not even occur inside the generated translation file. -/
theorem C3_scenarioB_counterexample :
    ((TRSGenerator.column_bodies scenarioColumn svMap 2).map (· ++ crlf)).flatten
      ≠ chars "CS:C_TEST_FIELD^LU\r\n\t\tP:Test Field^\r\n\t\tA:Prompt^Testfält^\r\n\tCE:\r\n"
    ∧ isSub (chars "CS:C_TEST_FIELD^LU\r\n\t\tP:Test Field^\r\n\t\tA:Prompt^Testfält^\r\n\tCE:\r\n")
        (trsSvSE.generate_file scenarioTree svMap) = false := by
  refine ⟨by decide, by decide⟩

/-- C3 (amended): in scenario B the Column block is emitted at indent level 2,
so it is exactly
`\t\tCS:C_TEST_FIELD^LU\r\n\t\t\tP:Test Field^\r\n\t\t\tA:Prompt^Testfält^\r\n\t\tCE:\r\n`,
and the whole translation content embeds it between the LU/View CS lines and
their CE lines. -/
theorem C3_scenarioB :
    ((TRSGenerator.column_bodies scenarioColumn svMap 2).map (· ++ crlf)).flatten
      = chars "\t\tCS:C_TEST_FIELD^LU\r\n\t\t\tP:Test Field^\r\n\t\t\tA:Prompt^Testfält^\r\n\t\tCE:\r\n"
    ∧ TRSGenerator.generate_content scenarioTree svMap
      = chars "CS:TestLU^LU\r\n\tCS:TEST_VIEW^LU\r\n"
        ++ chars "\t\tCS:C_TEST_FIELD^LU\r\n\t\t\tP:Test Field^\r\n\t\t\tA:Prompt^Testfält^\r\n\t\tCE:\r\n"
        ++ chars "\tCE:\r\nCE:\r\n" := by
  refine ⟨by decide, by decide⟩

theorem cs_excl_p {s : Chars} (h : startsWith (chars "CS:") s = true) :
    startsWith (chars "P:") s = false := by
  cases s with
  | nil => rw [chars_CS] at h; simp [startsWith] at h
  | cons c cs =>
    rw [chars_CS] at h
    simp only [startsWith, Bool.and_eq_true, decide_eq_true_eq] at h
    obtain rfl : c = 'C' := h.1.symm
    rw [chars_Pc]
    exact startsWith_cons_false _ _ (by decide)

/-- C4: field-count contract. (a) For any content line whose trimmed text
starts with `CS:`, the `.lng` check yields no error exactly when splitting on
`^` gives 5 fields, and otherwise one error naming expected vs actual count;
the `.trs` check likewise with 2 fields. (b) Every CS line produced by the
definition encoder has exactly 5 `^`-separated fields and every CS line
produced by the translation encoder exactly 2, provided node identifiers
contain no `^`. -/
theorem C4_field_count :
    (∀ (n : Nat) (l : Chars), startsWith (chars "CS:") (pyStrip l) = true →
      IFSValidator.lngLineErrors n (pyStrip l)
        = if (splitChar '^' (pyStrip l)).length = 5 then []
          else [IFSValidator.csFormatLngMsg n (splitChar '^' (pyStrip l)).length])
    ∧ (∀ (n : Nat) (l : Chars), startsWith (chars "CS:") (pyStrip l) = true →
      IFSValidator.trsLineErrors n (pyStrip l)
        = if (splitChar '^' (pyStrip l)).length = 2 then []
          else [IFSValidator.csFormatTrsMsg n (splitChar '^' (pyStrip l)).length])
    ∧ (∀ t : ResourceTree, CaretFreeIds t →
        ∀ l ∈ LNGGenerator.content_lines t,
          startsWith (chars "CS:") (pyStrip l) = true →
          (splitChar '^' (pyStrip l)).length = 5)
    ∧ (∀ (t : ResourceTree) (tm : TranslationMap), CaretFreeIds t →
        ∀ l ∈ TRSGenerator.content_lines t tm,
          startsWith (chars "CS:") (pyStrip l) = true →
          (splitChar '^' (pyStrip l)).length = 2) := by
  refine ⟨?_, ?_, ?_, ?_⟩
  · intro n l hcs
    have hap := cs_excl_ap hcs
    simp only [IFSValidator.lngLineErrors, hcs, hap, if_true]
    simp
  · intro n l hcs
    have hap := cs_excl_ap hcs
    have hp := cs_excl_p hcs
    simp only [IFSValidator.trsLineErrors, hcs, hap, hp, if_true]
    simp
  · intro t hcar l hl hcs
    simp only [LNGGenerator.content_lines, List.mem_map] at hl
    obtain ⟨p, hp, rfl⟩ := hl
    rcases content_shape_lng hcar hp with
      ⟨d, x, suf, hx, hcount, hlast, rfl⟩ | ⟨d, lbl, rfl⟩ | ⟨d, rfl⟩
    · rw [strip_cs_crlf d x hlast (by decide), splitChar_parts_cs x suf hx, hcount]
    · rw [strip_prompt_crlf d lbl, prompt_core_not_cs] at hcs
      exact absurd hcs (by simp)
    · rw [strip_ce_crlf d, ce_not_cs] at hcs
      exact absurd hcs (by simp)
  · intro t tm hcar l hl hcs
    simp only [TRSGenerator.content_lines, List.mem_map] at hl
    obtain ⟨p, hp, rfl⟩ := hl
    rcases content_shape_trs hcar hp with
      ⟨d, x, suf, hx, hcount, hlast, rfl⟩ | ⟨d, lbl, rfl⟩ | ⟨d, lbl, rfl⟩ | ⟨d, rfl⟩
    · rw [strip_cs_crlf d x hlast (by decide), splitChar_parts_cs x suf hx, hcount]
    · rw [strip_p_crlf d lbl, p_core_not_cs] at hcs
      exact absurd hcs (by simp)
    · rw [strip_prompt_crlf d lbl, prompt_core_not_cs] at hcs
      exact absurd hcs (by simp)
    · rw [strip_ce_crlf d, ce_not_cs] at hcs
      exact absurd hcs (by simp)

theorem C4_field_count_witness :
    (IFSValidator.lngLineErrors 7 (pyStrip (chars "\tCS:A^B\r\n"))
      = if (splitChar '^' (pyStrip (chars "\tCS:A^B\r\n"))).length = 5 then []
        else [IFSValidator.csFormatLngMsg 7
          (splitChar '^' (pyStrip (chars "\tCS:A^B\r\n"))).length])
    ∧ (splitChar '^' (pyStrip (chars "CS:TestLU^LU^Logical Unit^N^N" ++ crlf))).length = 5
    ∧ (splitChar '^' (pyStrip (chars "CS:TestLU^LU" ++ crlf))).length = 2 :=
  ⟨C4_field_count.1 7 (chars "\tCS:A^B\r\n") (by decide),
   C4_field_count.2.2.1 scenarioTree (by decide)
     (chars "CS:TestLU^LU^Logical Unit^N^N" ++ crlf) (by decide) (by decide),
   C4_field_count.2.2.2 scenarioTree svMap (by decide)
     (chars "CS:TestLU^LU" ++ crlf) (by decide) (by decide)⟩

/-- C5: fallback law. (a) For a Column whose label is absent from the
TranslationMap, the translation encoder emits `A:Prompt^label^` with the
original label, via the defaulting lookup. (b) For a well-formed tree, the
file generated with the label missing from the map validates with the same
verdict and the same error list as the file generated after adding an
explicit (line-break-free) entry for that label. -/
theorem C5_fallback_law :
    (∀ (col : Column) (tm : TranslationMap) (d : Nat),
      List.lookup col.label tm = none →
      TRSGenerator.column_bodies col tm d
        = [tabs d ++ chars "CS:" ++ col.control ++ chars "^LU",
           tabs d ++ '\t' :: (chars "P:" ++ col.label ++ ['^']),
           tabs d ++ '\t' :: (chars "A:Prompt^" ++ col.label ++ ['^']),
           tabs d ++ chars "CE:"])
    ∧ (∀ (h : TRSGenerator) (t : ResourceTree) (tm : TranslationMap) (L T : Chars),
        NoBreak h.module → NoBreak h.layer → NoBreak h.language →
        NoBreak h.main_type → NoBreak h.sub_type →
        ClaimTreeHyp t → NamesNonempty t →
        (∀ p ∈ tm, NoBreak p.2) → NoBreak T →
        List.lookup L tm = none →
        (IFSValidator.validate_file (chars ".trs") (h.generate_file t tm)).1
          = (IFSValidator.validate_file (chars ".trs")
              (h.generate_file t ((L, T) :: tm))).1
        ∧ (IFSValidator.validate_file (chars ".trs") (h.generate_file t tm)).2.1
          = (IFSValidator.validate_file (chars ".trs")
              (h.generate_file t ((L, T) :: tm))).2.1) := by
  constructor
  · intro col tm d hmiss
    unfold TRSGenerator.column_bodies
    rw [hmiss]
    rfl
  · intro h t tm L T h1 h2 h3 h4 h5 hct hne htm hT _hmiss
    have hGood := goodTree_of hct hne
    have htm2 : ∀ p ∈ (L, T) :: tm, NoBreak p.2 := by
      intro p hp
      rcases List.mem_cons.mp hp with rfl | hp
      · exact hT
      · exact htm p hp
    obtain ⟨a1, a2, -⟩ := roundtrip_trs h t tm h1 h2 h3 h4 h5 hGood htm
    obtain ⟨b1, b2, -⟩ := roundtrip_trs h t ((L, T) :: tm) h1 h2 h3 h4 h5 hGood htm2
    exact ⟨by rw [a1, b1], by rw [a2, b2]⟩

theorem C5_fallback_law_witness :
    TRSGenerator.column_bodies ⟨chars "C_X", chars "Other", true⟩ svMap 2
      = [tabs 2 ++ chars "CS:" ++ chars "C_X" ++ chars "^LU",
         tabs 2 ++ '\t' :: (chars "P:" ++ chars "Other" ++ ['^']),
         tabs 2 ++ '\t' :: (chars "A:Prompt^" ++ chars "Other" ++ ['^']),
         tabs 2 ++ chars "CE:"]
    ∧ ((IFSValidator.validate_file (chars ".trs") (trsSvSE.generate_file scenarioTree [])).1
        = (IFSValidator.validate_file (chars ".trs")
            (trsSvSE.generate_file scenarioTree [(chars "Test Field", chars "Testfält")])).1
      ∧ (IFSValidator.validate_file (chars ".trs") (trsSvSE.generate_file scenarioTree [])).2.1
        = (IFSValidator.validate_file (chars ".trs")
            (trsSvSE.generate_file scenarioTree [(chars "Test Field", chars "Testfält")])).2.1) :=
  ⟨C5_fallback_law.1 ⟨chars "C_X", chars "Other", true⟩ svMap 2 (by decide),
   C5_fallback_law.2 trsSvSE scenarioTree [] (chars "Test Field") (chars "Testfält")
     (by decide) (by decide) (by decide) (by decide) (by decide) (by decide) (by decide)
     (by decide) (by decide) (by decide)⟩

/-- C6: scenario C. Running the nesting check over the content lines
`CS:A^LU`, `CS:B^LU`, `CE:` produces exactly one error, reporting CS `A` at
its opening line 1 as not closed: the CE pops the most recently opened block
`B`, leaving `(A, 1)` on the stack. -/
theorem C6_scenarioC :
    IFSValidator.cs_ce_errors 0 [chars "CS:A^LU\r\n", chars "CS:B^LU\r\n", chars "CE:\r\n"]
      = [chars "Line 1: CS " ++ (squote :: (chars "A" ++ (squote :: chars " not closed with CE")))]
    ∧ (IFSValidator.pairingScan 1 []
        [chars "CS:A^LU\r\n", chars "CS:B^LU\r\n", chars "CE:\r\n"]).2
      = [(chars "A", 1)] := by
  refine ⟨by decide, by decide⟩

/-- C7 counterexample: validating a file whose content is a single `CE:` line
with no prior `CS:` line does not produce the error "CE without matching CS":
the validator cannot locate a content section at all (content starts at the
first CS line), so the single error is "Could not find content section". -/
theorem C7_scenarioD_counterexample :
    (IFSValidator.validate_file (chars ".lng")
        (lngESSPRO.generate_header ++ chars "CE:\r\n")).2.1
      = [chars "Could not find content section"]
    ∧ (IFSValidator.validate_file (chars ".lng")
        (lngESSPRO.generate_header ++ chars "CE:\r\n")).1 = false
    ∧ ((IFSValidator.validate_file (chars ".lng")
        (lngESSPRO.generate_header ++ chars "CE:\r\n")).2.1.filter
          (fun e => isSub (chars "CE without matching CS") e)) = [] := by
  refine ⟨by decide, by decide, by decide⟩

/-- C7 (amended): full validation of a file whose content is only `CE:\r\n`
yields exactly one error, "Could not find content section", and no warnings;
the nesting check itself, run over the single line `CE:\r\n`, yields exactly
one error "Line 1: CE without matching CS" (and the nesting check produces no
warnings by construction). -/
theorem C7_scenarioD :
    IFSValidator.validate_file (chars ".lng") (lngESSPRO.generate_header ++ chars "CE:\r\n")
      = (false, [chars "Could not find content section"], [])
    ∧ IFSValidator.cs_ce_errors 0 [chars "CE:\r\n"]
      = [chars "Line 1: CE without matching CS"] := by
  refine ⟨by decide, by decide⟩

/-- C8 counterexample: the translation-kind preamble does not comprise ten
lines — the header generated for `sv-SE` splits into twelve lines. -/
theorem C8_header_counterexample :
    (pyLines (trsSvSE.generate_header)).length = 12
    ∧ (pyLines (trsSvSE.generate_header)).length ≠ 10 := by
  refine ⟨by decide, by decide⟩

/-- C8 (amended): the header generator emits the fixed preamble — separator,
file-type declaration, version line 10.00, separator, Module:, (translation
kind only: Language: and Culture:), Layer:, Main Type:, Sub Type:, Content:
marker, closing separator — every line terminated by CRLF; the definition-kind
preamble comprises exactly ten lines and the translation-kind preamble exactly
twelve. -/
theorem C8_header_preamble (gl : LNGGenerator) (gt : TRSGenerator)
    (h1 : NoBreak gl.module) (h2 : NoBreak gl.layer)
    (h3 : NoBreak gl.main_type) (h4 : NoBreak gl.sub_type)
    (h5 : NoBreak gt.module) (h6 : NoBreak gt.layer) (h7 : NoBreak gt.language)
    (h8 : NoBreak gt.main_type) (h9 : NoBreak gt.sub_type) :
    pyLines (gl.generate_header)
      = [LNGGenerator.sepLine ++ crlf,
         chars "File Type: IFS Foundation Language File" ++ crlf,
         chars "Type version: 10.00" ++ crlf,
         LNGGenerator.sepLine ++ crlf,
         (chars "Module: " ++ gl.module) ++ crlf,
         (chars "Layer: " ++ gl.layer) ++ crlf,
         (chars "Main Type: " ++ gl.main_type) ++ crlf,
         (chars "Sub Type: " ++ gl.sub_type) ++ crlf,
         chars "Content: " ++ crlf,
         LNGGenerator.sepLine ++ crlf]
    ∧ (pyLines (gl.generate_header)).length = 10
    ∧ pyLines (gt.generate_header)
      = [LNGGenerator.sepLine ++ crlf,
         chars "File Type: IFS Foundation Translation File" ++ crlf,
         chars "Type version: 10.00" ++ crlf,
         LNGGenerator.sepLine ++ crlf,
         (chars "Module: " ++ gt.module) ++ crlf,
         (chars "Language: " ++ gt.lang_code) ++ crlf,
         (chars "Culture: " ++ gt.culture) ++ crlf,
         (chars "Layer: " ++ gt.layer) ++ crlf,
         (chars "Main Type: " ++ gt.main_type) ++ crlf,
         (chars "Sub Type: " ++ gt.sub_type) ++ crlf,
         chars "Content: " ++ crlf,
         LNGGenerator.sepLine ++ crlf]
    ∧ (pyLines (gt.generate_header)).length = 12 := by
  have ha : pyLines (gl.generate_header)
      = (LNGGenerator.header_bodies gl).map (· ++ crlf) := by
    unfold LNGGenerator.generate_header
    refine pyLines_crlf _ ?_
    intro p hp
    exact (nobreak_header_lng gl h1 h2 h3 h4 p hp).2
  have hb : pyLines (gt.generate_header)
      = (TRSGenerator.header_bodies gt).map (· ++ crlf) := by
    unfold TRSGenerator.generate_header
    refine pyLines_crlf _ ?_
    intro p hp
    exact (nobreak_header_trs gt h5 h6 h7 h8 h9 p hp).2
  refine ⟨?_, ?_, ?_, ?_⟩
  · rw [ha]
    simp [LNGGenerator.header_bodies]
  · rw [ha]
    simp [LNGGenerator.header_bodies]
  · rw [hb]
    simp [TRSGenerator.header_bodies]
  · rw [hb]
    simp [TRSGenerator.header_bodies]

theorem C8_header_preamble_witness :
    pyLines (lngESSPRO.generate_header)
      = [LNGGenerator.sepLine ++ crlf,
         chars "File Type: IFS Foundation Language File" ++ crlf,
         chars "Type version: 10.00" ++ crlf,
         LNGGenerator.sepLine ++ crlf,
         (chars "Module: " ++ lngESSPRO.module) ++ crlf,
         (chars "Layer: " ++ lngESSPRO.layer) ++ crlf,
         (chars "Main Type: " ++ lngESSPRO.main_type) ++ crlf,
         (chars "Sub Type: " ++ lngESSPRO.sub_type) ++ crlf,
         chars "Content: " ++ crlf,
         LNGGenerator.sepLine ++ crlf]
    ∧ (pyLines (lngESSPRO.generate_header)).length = 10
    ∧ pyLines (trsSvSE.generate_header)
      = [LNGGenerator.sepLine ++ crlf,
         chars "File Type: IFS Foundation Translation File" ++ crlf,
         chars "Type version: 10.00" ++ crlf,
         LNGGenerator.sepLine ++ crlf,
         (chars "Module: " ++ trsSvSE.module) ++ crlf,
         (chars "Language: " ++ trsSvSE.lang_code) ++ crlf,
         (chars "Culture: " ++ trsSvSE.culture) ++ crlf,
         (chars "Layer: " ++ trsSvSE.layer) ++ crlf,
         (chars "Main Type: " ++ trsSvSE.main_type) ++ crlf,
         (chars "Sub Type: " ++ trsSvSE.sub_type) ++ crlf,
         chars "Content: " ++ crlf,
         LNGGenerator.sepLine ++ crlf]
    ∧ (pyLines (trsSvSE.generate_header)).length = 12 :=
  C8_header_preamble lngESSPRO trsSvSE (by decide) (by decide) (by decide) (by decide)
    (by decide) (by decide) (by decide) (by decide) (by decide)

/-- C9: in the nesting check, a CS line whose trimmed text has no characters
between `CS:` and the first `^` (or is exactly `CS:`) is reported as a
malformed-CS error and is not pushed onto the stack; consequently, a later CE
can pop an enclosing block instead, so a single malformed CS also produces a
"CE without matching CS" error at a different line, as the concrete scan
shows. -/
theorem C9_malformed_cs :
    (∀ (l : Chars) (ls : List Chars) (n : Nat) (stack : List (Chars × Nat)),
      startsWith (chars "CS:") (pyStrip l) = true →
      ((pyStrip l).drop 3).takeWhile (· ≠ '^') = [] →
      IFSValidator.pairingScan n stack (l :: ls)
        = (IFSValidator.malformedMsg n (pyStrip l)
            :: (IFSValidator.pairingScan (n + 1) stack ls).1,
           (IFSValidator.pairingScan (n + 1) stack ls).2))
    ∧ IFSValidator.cs_ce_errors 0
        [chars "CS:A^LU\r\n", chars "CS:^LU\r\n", chars "CE:\r\n", chars "CE:\r\n"]
      = [chars "Line 2: Malformed CS line: CS:^LU",
         chars "Line 4: CE without matching CS"] := by
  constructor
  · intro l ls n stack hcs hempty
    simp only [IFSValidator.pairingScan, hcs, if_true, hempty]
  · decide

theorem C9_malformed_cs_witness :
    IFSValidator.pairingScan 5 [] [chars "CS:^X\r\n"]
      = (IFSValidator.malformedMsg 5 (pyStrip (chars "CS:^X\r\n"))
          :: (IFSValidator.pairingScan 6 [] []).1,
         (IFSValidator.pairingScan 6 [] []).2) :=
  C9_malformed_cs.1 (chars "CS:^X\r\n") [] 5 [] (by decide) (by decide)

/-- C10: `validate_file` carries no state between calls — the instance error
and warning lists are re-initialised at the start of every call, so the
returned triple is a function of the extension and content only, and two
successive calls on the same validator instance with identical input return
equal triples. -/
theorem C10_stateless :
    ∀ (s1 s2 : IFSValidator.State) (ext c : Chars),
      (IFSValidator.validate_file_st s1 ext c).1 = (IFSValidator.validate_file_st s2 ext c).1
      ∧ (IFSValidator.validate_file_st (IFSValidator.validate_file_st s1 ext c).2 ext c).1
          = (IFSValidator.validate_file_st s1 ext c).1
      ∧ (IFSValidator.validate_file_st s1 ext c).1 = IFSValidator.validate_file ext c := by
  intro s1 s2 ext c
  exact ⟨rfl, rfl, rfl⟩
